import Mathlib

/-!
Logger.cpp: the line-formatting pipeline.

A shallow embedding of `src/Logger.cpp` (`inner_utoa_pad`, `inner_utoa`,
`inner_gettimeofday`, `inner_time_decode`, `inner_time_encode`, `logger_log`,
`logger_print` and the configuration setters) together with the properties of
the rendered line.

Conventions of the embedding.

* A byte is a `Nat` (its character code); a region of memory is a `List Nat`.
* `log_buffer` is a list of `LOG_BUFFER_MAX_SIZE` bytes whose initial content is
  indeterminate (it is an uninitialised stack array) and is supplied by the
  environment.  The cursor `pre` is the offset `pre - log_buffer`.
* A write through the cursor is `List.set`; a write that would land outside
  the array is dropped and recorded in the flag `ok` (the C behaviour is then
  undefined; the remaining fields describe the run on a flat memory).
* C `int`/`long` values are `Int`; the conversion to `unsigned long` at the
  calls of `inner_utoa`/`inner_utoa_pad` is `to_ulong` (reduction mod `2^64`).
* The formatting primitive `vsnprintf(pre, n, format, marker)` is represented
  by its outcome (`Expansion`): a negative result, with whatever the failed
  call left at its destination, or the byte string that `format` and `marker`
  expand to.
* libc's `localtime_r` and `mktime` are parameters of the time functions.
-/

namespace Logger

/-! Part 1: definitions (the program, then the texts of the specification). -/

/-! Constants of `Logger.h` and `Logger.cpp`. -/

/-- `#define LOG_BUFFER_MAX_SIZE 1024`. -/
def LOG_BUFFER_MAX_SIZE : Nat := 1024

/-- `#define LOGGER_MAX_LEVEL 5`. -/
def LOGGER_MAX_LEVEL : Int := 5

def LOG_HAS_YEAR : Nat := 1

def LOG_HAS_DAY : Nat := 2

def LOG_HAS_TIME : Nat := 4

def LOG_HAS_SENDER : Nat := 8

def LOG_HAS_COLOR : Nat := 16

def LOG_HAS_LEVEL_TEXT : Nat := 32

def LOG_HAS_THREAD_ID : Nat := 64

def LOG_HAS_THREAD_SWC : Nat := 128

def LOG_HAS_CR : Nat := 256

def LOG_HAS_NEWLINE : Nat := 512

/-- The C test `log_decor & FLAG` (non-zero means taken). -/
def has (decor flag : Nat) : Bool := decor &&& flag != 0

/-- `enum { THREAD_WIDTH = 6 }`. -/
def THREAD_WIDTH : Nat := 6

/-- `enum { SENDER_WIDTH = 25 }`. -/
def SENDER_WIDTH : Nat := 25

/-- Size of the scratch array `char threadid[10]`. -/
def THREADID_SIZE : Nat := 10

/-! The numeric encoder: `inner_utoa_pad`, `inner_utoa`. -/

/-- Conversion of a C integer to `unsigned long` (64 bits). -/
def to_ulong (i : Int) : Nat := (i % 18446744073709551616).toNat

/-- First loop of `inner_utoa_pad`:
`do { digval = val % 10; val /= 10; *p++ = digval + '0'; } while (val > 0);`
The list is the region `buf[0 .. p)` written so far.  An `unsigned long` has at
most 20 decimal digits, so 20 rounds of fuel are enough. -/
def utoa_digits : Nat → Nat → List Nat → List Nat
  | 0, _, buf => buf
  | fuel + 1, val, buf =>
    let digval := val % 10
    let val1 := val / 10
    let buf1 := buf ++ [digval + 48]
    if val1 > 0 then utoa_digits fuel val1 buf1 else buf1

/-- Second loop of `inner_utoa_pad`:
`while (len < min_dig) { *p++ = (char)pad; ++len; }` with `len = p - buf`. -/
def utoa_padding (min_dig : Int) (pad : Nat) : Nat → List Nat → List Nat
  | 0, buf => buf
  | fuel + 1, buf =>
    if (buf.length : Int) < min_dig then utoa_padding min_dig pad fuel (buf ++ [pad]) else buf

/-- Last loop of `inner_utoa_pad`, the in-place reversal
`do { temp = *p; *p = *buf; *buf = temp; --p; ++buf; } while (buf < p);`
with `i` the offset of `buf` and `j` the offset of `p`; the test `buf < p`
after the two steps is `i + 1 < j - 1`, written here without subtraction. -/
def utoa_reverse : Nat → List Nat → Nat → Nat → List Nat
  | 0, mem, _, _ => mem
  | fuel + 1, mem, i, j =>
    let temp := mem.getD j 0
    let mem1 := mem.set j (mem.getD i 0)
    let mem2 := mem1.set i temp
    if i + 1 + 1 < j then utoa_reverse fuel mem2 (i + 1) (j - 1) else mem2

/-- `inner_utoa_pad(val, buf, min_dig, pad)`: the bytes left in
`buf[0 .. len]` (the text and its terminating NUL) and the returned `len`. -/
def inner_utoa_pad (val : Nat) (min_dig : Int) (pad : Nat) : List Nat × Nat :=
  let val := val % 18446744073709551616
  let digs := utoa_digits 20 val []
  let padded := utoa_padding min_dig pad min_dig.toNat digs
  let len := padded.length
  let mem := padded ++ [0]
  (utoa_reverse len mem 0 (len - 1), len)

/-- `inner_utoa(val, buf)` is `inner_utoa_pad(val, buf, 0, 0)`. -/
def inner_utoa (val : Nat) : List Nat × Nat := inner_utoa_pad val 0 0

/-! The time source: `inner_gettimeofday`, `inner_time_decode`. -/

/-- `struct time_str`. -/
structure time_str where
  sec : Int
  msec : Int
  deriving DecidableEq

/-- `struct detail_time_str`. -/
structure detail_time_str where
  wday : Int
  day : Int
  mon : Int
  year : Int
  sec : Int
  min : Int
  hour : Int
  msec : Int
  deriving DecidableEq

/-- The fields of libc's `struct timeval`. -/
structure timeval where
  tv_sec : Int
  tv_usec : Int
  deriving DecidableEq

/-- The fields of libc's `struct tm` that the program reads. -/
structure tm where
  tm_sec : Int
  tm_min : Int
  tm_hour : Int
  tm_mday : Int
  tm_mon : Int
  tm_year : Int
  tm_wday : Int
  deriving DecidableEq

/-- `inner_gettimeofday(p_tv)`: `rc` and `the_time` are what `gettimeofday`
returned; `p_tv` is the content of `*p_tv` before the call.  The result is the
returned code and the content of `*p_tv` after the call. -/
def inner_gettimeofday (rc : Int) (the_time : timeval) (p_tv : time_str) : Int × time_str :=
  if rc ≠ 0 then (rc, p_tv)
  else (0, { sec := the_time.tv_sec, msec := Int.tdiv the_time.tv_usec 1000 })

/-- Conversion of a `long` to `int` (the assignment `pt->msec = tv->msec`). -/
def long_to_int (x : Int) : Int := (x + 2147483648) % 4294967296 - 2147483648

/-- `inner_time_decode(tv, pt)` with libc's `localtime_r` as a parameter. -/
def inner_time_decode (localtime_r : Int → tm) (tv : time_str) : Int × detail_time_str :=
  let local_time := localtime_r tv.sec
  (0, { year := local_time.tm_year + 1900,
        mon := local_time.tm_mon,
        day := local_time.tm_mday,
        hour := local_time.tm_hour,
        min := local_time.tm_min,
        sec := local_time.tm_sec,
        wday := local_time.tm_wday,
        msec := long_to_int tv.msec })

/-! The line buffer and its cursor. -/

/-- The array `log_buffer`, the cursor `pre` (as the offset `pre - log_buffer`)
and the flag `ok`, which is `false` once an access fell outside an array. -/
structure LogBuf where
  data : List Nat
  pre : Nat
  ok : Bool
  deriving DecidableEq

/-- Stores `bytes` at consecutive offsets starting at `off`. -/
def write_at : List Nat → Nat → List Nat → List Nat
  | data, _, [] => data
  | data, off, c :: cs => write_at (data.set off c) (off + 1) cs

/-- A store of `bytes` at the cursor that leaves the cursor in place
(`strcpy(pre, ...)`, or the body of `inner_utoa_pad(..., pre, ...)`). -/
def LogBuf.store (s : LogBuf) (bytes : List Nat) : LogBuf :=
  { data := write_at s.data s.pre bytes,
    pre := s.pre,
    ok := s.ok && decide (s.pre + bytes.length ≤ s.data.length) }

/-- `pre += n`. -/
def LogBuf.advance (s : LogBuf) (n : Nat) : LogBuf :=
  { s with pre := s.pre + n }

/-- `*pre++ = c`. -/
def LogBuf.putc (s : LogBuf) (c : Nat) : LogBuf :=
  { data := s.data.set s.pre c,
    pre := s.pre + 1,
    ok := s.ok && decide (s.pre < s.data.length) }

/-- `if (pre != log_buffer) *pre++ = c`. -/
def LogBuf.sep (s : LogBuf) (c : Nat) : LogBuf :=
  if s.pre ≠ 0 then s.putc c else s

/-- `pre += inner_utoa_pad(val, pre, min_dig, pad)`. -/
def LogBuf.utoa_pad (s : LogBuf) (val : Nat) (min_dig : Int) (pad : Nat) : LogBuf :=
  let r := inner_utoa_pad val min_dig pad
  (s.store r.1).advance r.2

/-- `pre += inner_utoa(val, pre)`. -/
def LogBuf.utoa (s : LogBuf) (val : Nat) : LogBuf :=
  let r := inner_utoa val
  (s.store r.1).advance r.2

/-- `while (thread_len < THREAD_WIDTH) *pre++ = ' ', ++thread_len;` -/
def pad_spaces : Nat → Nat → LogBuf → LogBuf
  | 0, _, s => s
  | fuel + 1, thread_len, s =>
    if thread_len < THREAD_WIDTH then pad_spaces fuel (thread_len + 1) (s.putc 32) else s

/-- `while (*id) *pre++ = *id++;` where `mem` is the memory at `id`. -/
def copy_cstr : List Nat → LogBuf → LogBuf
  | [], s => s
  | c :: cs, s => if c ≠ 0 then copy_cstr cs (s.putc c) else s

/-- `for (i=0; i<n; ++i) *pre++ = *id++;` where `mem` is the memory at `id`. -/
def copy_n : Nat → List Nat → LogBuf → LogBuf
  | 0, _, s => s
  | n + 1, mem, s => copy_n n mem.tail (s.putc (mem.headD 0))

/-- `while (*sender) *pre++ = *sender++;` for the C string `str` (the bytes
before its NUL). -/
def copy_str : List Nat → LogBuf → LogBuf
  | [], s => s
  | c :: cs, s => copy_str cs (s.putc c)

/-- One id field of the `LOG_HAS_THREAD_ID` block: `inner_utoa(id, threadid)`
into the scratch array, then the copy into the line, padded or cut to
`THREAD_WIDTH`. -/
def put_id (id : Int) (s : LogBuf) : LogBuf :=
  let r := inner_utoa (to_ulong id)
  let threadid := r.1
  let thread_len := r.2
  let s := { s with ok := s.ok && decide (threadid.length ≤ THREADID_SIZE) }
  if thread_len ≤ THREAD_WIDTH then
    copy_cstr threadid (pad_spaces THREAD_WIDTH thread_len s)
  else
    copy_n THREAD_WIDTH threadid s

/-- The table `ltexts`. -/
def ltexts : List (List Nat) := [[70], [69], [87], [73], [68], [86]]

/-! The blocks of `logger_log` that build the prefix (lines 224-305). -/

/-- `if (log_decor & LOG_HAS_YEAR) { ... }`. -/
def put_year (decor : Nat) (ptime : detail_time_str) (s : LogBuf) : LogBuf :=
  if has decor LOG_HAS_YEAR then s.utoa (to_ulong ptime.year) else s

/-- `if (log_decor & LOG_HAS_DAY) { ... }`. -/
def put_day (decor : Nat) (ptime : detail_time_str) (s : LogBuf) : LogBuf :=
  if has decor LOG_HAS_DAY then
    let s := s.sep 45
    let s := s.utoa_pad (to_ulong (ptime.mon + 1)) 2 48
    let s := s.putc 45
    s.utoa_pad (to_ulong ptime.day) 2 48
  else s

/-- `if (log_decor & LOG_HAS_TIME) { ... }`. -/
def put_time (decor : Nat) (ptime : detail_time_str) (s : LogBuf) : LogBuf :=
  if has decor LOG_HAS_TIME then
    let s := s.sep 32
    let s := s.utoa_pad (to_ulong ptime.hour) 2 48
    let s := s.putc 58
    let s := s.utoa_pad (to_ulong ptime.min) 2 48
    let s := s.putc 58
    let s := s.utoa_pad (to_ulong ptime.sec) 2 48
    let s := s.putc 46
    s.utoa_pad (to_ulong ptime.msec) 3 48
  else s

/-- `if (log_decor & LOG_HAS_THREAD_ID) { ... }`. -/
def put_thread_id (decor : Nat) (pid tid : Int) (s : LogBuf) : LogBuf :=
  if has decor LOG_HAS_THREAD_ID then
    let s := if s.pre ≠ 0 then (s.putc 32).putc 32 else s
    let s := put_id pid s
    let s := s.putc 32
    let s := s.putc 32
    put_id tid s
  else s

/-- `if (log_decor & LOG_HAS_LEVEL_TEXT) { ... }`: `strcpy(pre, ltexts[level]);
pre += 1;`.  For a level outside the table the read `ltexts[level]` is out of
range and the behaviour of the C program is undefined from there on (in
practice it dies in `strcpy`, before any sink call): the run is flagged, and
what is computed after the flag, with `stray level` standing for the string
found through the stray slot, describes a flat memory only. -/
def put_level_text (decor : Nat) (stray : Int → List Nat) (level : Int) (s : LogBuf) : LogBuf :=
  if has decor LOG_HAS_LEVEL_TEXT then
    let s := s.sep 32
    if 0 ≤ level ∧ level < 6 then
      (s.store (ltexts.getD level.toNat [] ++ [0])).advance 1
    else
      let s := { s with ok := false }
      (s.store (stray level ++ [0])).advance 1
  else s

/-- `if (log_decor & LOG_HAS_SENDER) { ... }`; `sender` is the C string (the
bytes before its NUL). -/
def put_sender (decor : Nat) (sender : List Nat) (s : LogBuf) : LogBuf :=
  if has decor LOG_HAS_SENDER then
    let sender_len := sender.length
    let s := s.sep 32
    let s := if sender_len ≤ SENDER_WIDTH then copy_str sender s
             else copy_n SENDER_WIDTH sender s
    s.putc 58
  else s

/-- Lines 224-305 of `logger_log`: the prefix, built through the cursor. -/
def assemble (decor : Nat) (ptime : detail_time_str) (pid tid : Int)
    (stray : Int → List Nat) (sender : List Nat) (level : Int) (s : LogBuf) : LogBuf :=
  let s := put_year decor ptime s
  let s := put_day decor ptime s
  let s := put_time decor ptime s
  let s := put_thread_id decor pid tid s
  let s := put_level_text decor stray level s
  put_sender decor sender s

/-! The message, the terminators and the dispatch (lines 305-337). -/

/-- Arithmetic of `size_t` (64 bits): `a - b`. -/
def size_sub (a b : Nat) : Nat := (a + 18446744073709551616 - b % 18446744073709551616) % 18446744073709551616

/-- Conversion of an `int` to `size_t`. -/
def int_to_size (i : Int) : Nat := (i % 18446744073709551616).toNat

/-- Conversion `(int)` of a `size_t`. -/
def size_to_int (n : Nat) : Int := ((n : Int) + 2147483648) % 4294967296 - 2147483648

/-- The literal of the fallback `snprintf`. -/
def error_text : List Nat := "<logging error: msg too long>".toList.map Char.toNat

/-- Outcome of the formatting primitive on `format` and `marker`. -/
inductive Expansion where
  /-- A negative result; `left` is what the failed call left at its
  destination (C leaves that content unspecified). -/
  | failed (left : List Nat)
  /-- Success: `format` and `marker` expand to the text `m` (of length at most
  `INT_MAX`, as the result is an `int`). -/
  | text (m : List Nat)
  deriving DecidableEq

/-- `vsnprintf(pre, n, format, marker)` for the outcome `out` of the expansion.
On failure the result is negative and at most `n` bytes were left at the
cursor; on success at most `n - 1` bytes of the text and a NUL are stored and
the result is the full length of the text. -/
def vsnprintf (s : LogBuf) (n : Nat) (out : Expansion) : LogBuf × Int :=
  match out with
  | .failed left => (s.store (left.take n), -1)
  | .text m => (if n = 0 then s else s.store (m.take (n - 1) ++ [0]), (m.length : Int))

/-- `log_buffer[i] = c` for an `int` index. -/
def poke (s : LogBuf) (i : Int) (c : Nat) : LogBuf :=
  { data := s.data.set i.toNat c,
    pre := s.pre,
    ok := s.ok && decide (0 ≤ i ∧ i.toNat < s.data.length) }

/-- A call `(*log_writer_fun)(level, log_buffer, len)`: the function called and
its arguments, `data` being the content of `log_buffer` at the call. -/
structure SinkCall where
  func : Nat
  level : Int
  data : List Nat
  len : Int
  deriving DecidableEq

/-- What a run of `logger_log` did: the number of clock reads, the sink calls
in order, and whether every array access stayed in range. -/
structure Trace where
  clock_reads : Nat
  calls : List SinkCall
  ok : Bool
  deriving DecidableEq

/-- The static configuration variables `log_max_level`, `log_writer_fun`
(`none` is the null pointer) and `log_decor`. -/
structure Config where
  log_max_level : Int
  log_writer_fun : Option Nat
  log_decor : Nat
  deriving DecidableEq

/-- `logger_set_level(level)`. -/
def logger_set_level (cfg : Config) (level : Int) : Config :=
  { cfg with log_max_level := level }

/-- `logger_get_level()`. -/
def logger_get_level (cfg : Config) : Int := cfg.log_max_level

/-- `logger_set_decor(decor)`. -/
def logger_set_decor (cfg : Config) (decor : Nat) : Config :=
  { cfg with log_decor := decor }

/-- `logger_set_log_func(func)`. -/
def logger_set_log_func (cfg : Config) (func : Option Nat) : Config :=
  { cfg with log_writer_fun := func }

/-- `logger_get_func()`. -/
def logger_get_func (cfg : Config) : Option Nat := cfg.log_writer_fun

/-- The identity of the default writer `logger_write`. -/
def logger_write : Nat := 0

/-- The initial values of the configuration variables. -/
def Config.initial : Config :=
  { log_max_level := LOGGER_MAX_LEVEL,
    log_writer_fun := some logger_write,
    log_decor := LOG_HAS_DAY ||| LOG_HAS_TIME ||| LOG_HAS_SENDER ||| LOG_HAS_LEVEL_TEXT
      ||| LOG_HAS_THREAD_ID ||| LOG_HAS_NEWLINE }

/-- What the program obtains from outside during one call of `logger_log`. -/
structure Env where
  /-- Result code of `gettimeofday`. -/
  rc : Int
  /-- What `gettimeofday` stored on success. -/
  the_time : timeval
  /-- Indeterminate content of the local `now` before the clock read. -/
  now : time_str
  /-- Function `localtime_r` of libc. -/
  localtime_r : Int → tm
  /-- Result of `getpid()`. -/
  pid : Int
  /-- Result of `syscall(SYS_gettid)`. -/
  tid : Int
  /-- Indeterminate content of the local array `log_buffer`. -/
  stack : Nat → Nat
  /-- The string reached through a slot outside the table `ltexts`. -/
  stray : Int → List Nat

/-- The array `log_buffer` at entry. -/
def Env.log_buffer (env : Env) : LogBuf :=
  { data := (List.range LOG_BUFFER_MAX_SIZE).map env.stack, pre := 0, ok := true }

/-- The decoded time `ptime` of lines 220-222. -/
def Env.ptime (env : Env) : detail_time_str :=
  (inner_time_decode env.localtime_r (inner_gettimeofday env.rc env.the_time env.now).2).2

/-- Lines 305-312 of `logger_log`: the expansion of the message at the cursor
and the fallback when it fails.  `msg` is the outcome of expanding `format`
with `marker`.  The result is the level, the buffer and `print_len`. -/
def expand (level : Int) (msg : Expansion) (s : LogBuf) : Int × LogBuf × Int :=
  let len : Int := (s.pre : Int)
  let r := vsnprintf s (size_sub LOG_BUFFER_MAX_SIZE (int_to_size len)) msg
  if r.2 < 0 then
    let r1 := vsnprintf r.1 (size_sub LOG_BUFFER_MAX_SIZE (int_to_size len)) (.text error_text)
    (1, r1.1, r1.2)
  else (level, r.1, r.2)

/-- Lines 313-315 of `logger_log`:
`if (print_len < 1 || print_len >= (int)(sizeof(log_buffer)-len))
   print_len = sizeof(log_buffer) - len - 1;`. -/
def clip (len : Int) (print_len : Int) : Int :=
  if print_len < 1 ∨ print_len ≥ size_to_int (size_sub LOG_BUFFER_MAX_SIZE (int_to_size len)) then
    size_to_int (size_sub (size_sub LOG_BUFFER_MAX_SIZE (int_to_size len)) 1)
  else print_len

/-- Lines 317-334 of `logger_log`: the terminators and the NUL, for the length
`len` of prefix and message. -/
def terminate (decor : Nat) (s : LogBuf) (len : Int) : LogBuf × Int :=
  if len > 0 ∧ len < size_to_int LOG_BUFFER_MAX_SIZE - 2 then
    let r := if has decor LOG_HAS_CR then (poke s len 13, len + 1) else (s, len)
    let r := if has decor LOG_HAS_NEWLINE then (poke r.1 r.2 10, r.2 + 1) else r
    (poke r.1 r.2 0, r.2)
  else
    let len := size_to_int (size_sub LOG_BUFFER_MAX_SIZE 1)
    let s := if has decor LOG_HAS_CR then poke s (size_sub LOG_BUFFER_MAX_SIZE 3 : Nat) 13 else s
    let s := if has decor LOG_HAS_NEWLINE then poke s (size_sub LOG_BUFFER_MAX_SIZE 2 : Nat) 10 else s
    (poke s (size_sub LOG_BUFFER_MAX_SIZE 1 : Nat) 0, len)

/-- Lines 305-334 of `logger_log`: from the assembled prefix `s` to the
finished line.  The result is the level, the buffer and the length that
line 337 passes on. -/
def finish (decor : Nat) (level : Int) (msg : Expansion) (s : LogBuf) :
    Int × LogBuf × Int :=
  let len : Int := (s.pre : Int)
  let e := expand level msg s
  let print_len := clip len e.2.2
  let len := len + print_len
  let t := terminate decor e.2.1 len
  (e.1, t.1, t.2)

/-- Lines 336-337 of `logger_log`:
`if (log_writer_fun) (*log_writer_fun)(level, log_buffer, len);`. -/
def dispatch (log_writer_fun : Option Nat) (r : Int × LogBuf × Int) : Trace :=
  match log_writer_fun with
  | some f =>
    { clock_reads := 1,
      calls := [{ func := f, level := r.1, data := r.2.1.data, len := r.2.2 }],
      ok := r.2.1.ok }
  | none => { clock_reads := 1, calls := [], ok := r.2.1.ok }

/-- The prefix state of `logger_log` at line 305. -/
def prefix_state (cfg : Config) (env : Env) (sender : List Nat) (level : Int) : LogBuf :=
  assemble cfg.log_decor env.ptime env.pid env.tid env.stray sender level env.log_buffer

/-- `logger_log(sender, level, format, marker)`, with `msg` the outcome of
expanding `format` with `marker`. -/
def logger_log (cfg : Config) (env : Env) (sender : List Nat) (level : Int)
    (msg : Expansion) : Trace :=
  if level > cfg.log_max_level then { clock_reads := 0, calls := [], ok := true }
  else dispatch cfg.log_writer_fun
    (finish cfg.log_decor level msg (prefix_state cfg env sender level))

/-- `logger_print(tag, level, format, ...)`. -/
def logger_print (cfg : Config) (env : Env) (tag : List Nat) (level : Int)
    (msg : Expansion) : Trace :=
  if logger_get_level cfg ≥ level then logger_log cfg env tag level msg
  else { clock_reads := 0, calls := [], ok := true }

/-! The texts of the specification and the vocabulary of the proofs. -/

/-- Bytes of a text. -/
def bytes (t : String) : List Nat := t.toList.map Char.toNat

/-- A test environment: the clock succeeds and decodes to `t`. -/
def Env.fixed (t : tm) (msec : Int) (pid tid : Int) : Env :=
  { rc := 0, the_time := { tv_sec := 0, tv_usec := msec * 1000 }, now := { sec := 0, msec := 0 },
    localtime_r := fun _ => t, pid := pid, tid := tid, stack := fun _ => 170,
    stray := fun _ => [] }

/-- Decimal text of `n`, most significant digit first, as character codes. -/
def decimal (n : Nat) : List Nat :=
  if n = 0 then [48] else ((Nat.digits 10 n).reverse).map (· + 48)

/-- Text `s` left-padded with the byte `c` up to the width `w`. -/
def lpad (w : Nat) (c : Nat) (s : List Nat) : List Nat :=
  List.replicate (w - s.length) c ++ s

/-- The digits of `n`, least significant first, as the first loop leaves them. -/
def decimal_rev (n : Nat) : List Nat :=
  if n = 0 then [48] else (Nat.digits 10 n).map (· + 48)

/-- The bytes before the cursor. -/
def LogBuf.text (s : LogBuf) : List Nat := s.data.take s.pre

/-- The cursor discipline: from `s` to `s'` the cursor moved over exactly the
bytes `bs`, the array kept its size, everything before the old cursor is
untouched, and (under `safe`, with room for one byte after the new cursor) no
access left the array. -/
structure Emits (safe : Prop) (s s' : LogBuf) (bs : List Nat) : Prop where
  len : s'.data.length = s.data.length
  pre : s'.pre = s.pre + bs.length
  text : s'.pre ≤ s.data.length → s'.data.take s'.pre = s.data.take s.pre ++ bs
  ok : safe → s.ok = true → s'.pre + 1 ≤ s.data.length → s'.ok = true

/-- A separator `sp` that is present only when something precedes. -/
def sep_if (prev : List Nat) (sp : List Nat) : List Nat := if prev = [] then [] else sp

/-- An id rendered `THREAD_WIDTH` wide: its text left-padded with spaces, or
the first `THREAD_WIDTH` characters of its text. -/
def id_field (text : List Nat) : List Nat :=
  if text.length ≤ 6 then List.replicate (6 - text.length) 32 ++ text else text.take 6

/-- The one-letter label of a level: F, E, W, I, D, V for 0..5. -/
def level_label (level : Int) : List Nat :=
  if level = 0 then [70] else if level = 1 then [69] else if level = 2 then [87]
  else if level = 3 then [73] else if level = 4 then [68] else if level = 5 then [86]
  else []

/-- The decimal year. -/
def year_text (decor : Nat) (t : detail_time_str) : List Nat :=
  if has decor LOG_HAS_YEAR then decimal (to_ulong t.year) else []

/-- `MM-DD`, after a `-` if something precedes. -/
def day_text (decor : Nat) (t : detail_time_str) (prev : List Nat) : List Nat :=
  if has decor LOG_HAS_DAY then
    sep_if prev [45] ++ lpad 2 48 (decimal (to_ulong (t.mon + 1))) ++ [45]
      ++ lpad 2 48 (decimal (to_ulong t.day))
  else []

/-- `HH:MM:SS.mmm`, after a space if something precedes. -/
def time_text (decor : Nat) (t : detail_time_str) (prev : List Nat) : List Nat :=
  if has decor LOG_HAS_TIME then
    sep_if prev [32] ++ lpad 2 48 (decimal (to_ulong t.hour)) ++ [58]
      ++ lpad 2 48 (decimal (to_ulong t.min)) ++ [58]
      ++ lpad 2 48 (decimal (to_ulong t.sec)) ++ [46]
      ++ lpad 3 48 (decimal (to_ulong t.msec))
  else []

/-- The pid and the tid, each 6 wide, two spaces apart, after two spaces if
something precedes. -/
def thread_text (decor : Nat) (pid tid : Int) (prev : List Nat) : List Nat :=
  if has decor LOG_HAS_THREAD_ID then
    sep_if prev [32, 32] ++ id_field (decimal (to_ulong pid)) ++ [32, 32]
      ++ id_field (decimal (to_ulong tid))
  else []

/-- The level label `lab`, after a space if something precedes. -/
def label_text (decor : Nat) (lab : List Nat) (prev : List Nat) : List Nat :=
  if has decor LOG_HAS_LEVEL_TEXT then sep_if prev [32] ++ lab else []

/-- The sender cut to 25 bytes and a `:`, after a space if something precedes. -/
def sender_text (decor : Nat) (sender : List Nat) (prev : List Nat) : List Nat :=
  if has decor LOG_HAS_SENDER then sep_if prev [32] ++ sender.take 25 ++ [58] else []

/-- The prefix: year, date, time, thread ids, level label, sender, in this
order, each present iff its flag is set. -/
def prefix_text (decor : Nat) (t : detail_time_str) (pid tid : Int) (lab : List Nat)
    (sender : List Nat) : List Nat :=
  let p1 := year_text decor t
  let p2 := p1 ++ day_text decor t p1
  let p3 := p2 ++ time_text decor t p2
  let p4 := p3 ++ thread_text decor pid tid p3
  let p5 := p4 ++ label_text decor lab p4
  p5 ++ sender_text decor sender p5

/-- The byte that `strcpy(pre, ltexts[level]); pre += 1;` leaves before the
cursor. -/
def label_byte (stray : Int → List Nat) (level : Int) : List Nat :=
  ((if 0 ≤ level ∧ level < 6 then ltexts.getD level.toNat [] else stray level) ++ [0]).take 1

/-- Both id texts and their NUL fit the scratch array `threadid`. -/
def ids_fit (pid tid : Int) : Prop :=
  (decimal (to_ulong pid)).length + 1 ≤ THREADID_SIZE ∧
  (decimal (to_ulong tid)).length + 1 ≤ THREADID_SIZE

/-- No access of the prefix blocks leaves an array: the ids fit the scratch
array when they are rendered, and the level is in the label table when the
label is rendered. -/
def in_bounds (decor : Nat) (pid tid : Int) (level : Int) : Prop :=
  (has decor LOG_HAS_THREAD_ID = true → ids_fit pid tid) ∧
  (has decor LOG_HAS_LEVEL_TEXT = true → 0 ≤ level ∧ level < 6)

/-- The terminators of a line: `\r` if `LOG_HAS_CR`, then `\n` if
`LOG_HAS_NEWLINE`. -/
def terminators (decor : Nat) : List Nat :=
  (if has decor LOG_HAS_CR then [13] else []) ++ (if has decor LOG_HAS_NEWLINE then [10] else [])

/-- The text that lines 305-312 expand at the cursor and the level they pass
on: the message, or the fallback literal with level 1. -/
def expansion (level : Int) (msg : Expansion) : Int × List Nat :=
  match msg with
  | .text m => (level, m)
  | .failed _ => (1, error_text)

/-- The buffer in which lines 305-312 store that text: `s` itself, or `s` with
what a failed expansion left at the cursor. -/
def expand_base (msg : Expansion) (s : LogBuf) : LogBuf :=
  match msg with
  | .text _ => s
  | .failed left => s.store (left.take (1024 - s.pre))

/-- What the sink sees of a call: the function called, the level, the length,
the first `n` bytes of the data and the byte at offset `n`. -/
def SinkCall.view (n : Nat) (c : SinkCall) : Nat × Int × Int × List Nat × Nat :=
  (c.func, c.level, c.len, c.data.take n, c.data.getD n 0)

/-- The decoded clock of the end-to-end scenario: 2024-03-01 07:05:09, a Friday. -/
def scenario_tm : tm :=
  { tm_sec := 9, tm_min := 5, tm_hour := 7, tm_mday := 1, tm_mon := 2, tm_year := 124,
    tm_wday := 5 }

/-- The environment of the end-to-end scenario, with 123 milliseconds. -/
def scenario_env : Env := Env.fixed scenario_tm 123 4321 4322

/-- The configuration of the end-to-end scenario: time, level text, sender and
newline, maximum level 5, the default writer. -/
def scenario_cfg : Config :=
  { log_max_level := 5, log_writer_fun := some logger_write,
    log_decor := LOG_HAS_TIME ||| LOG_HAS_LEVEL_TEXT ||| LOG_HAS_SENDER ||| LOG_HAS_NEWLINE }

/-- A configuration with only `LOG_HAS_CR` set. -/
def cr_only_cfg : Config :=
  { log_max_level := 5, log_writer_fun := some logger_write, log_decor := LOG_HAS_CR }

/-- Length of the C string in `data`: the number of bytes before its first NUL. -/
def strlen (data : List Nat) : Nat := (data.takeWhile (· ≠ 0)).length

/-- The calendar time of the end-to-end scenario: 2024-03-01 07:05:09.123. -/
def scenario_time : detail_time_str :=
  { wday := 5, day := 1, mon := 2, year := 2024, sec := 9, min := 5, hour := 7, msec := 123 }

/-! Further environments, `inner_time_encode` with two models of libc's
`localtime_r` and `mktime`, and the column of the sender. -/

/-- The scenario environment with the bytes "Zq" behind every slot outside the
table `ltexts`. -/
def stray_env : Env :=
  { scenario_env with stray := fun _ => bytes "Zq" }

/-- The scenario environment with a failing clock read: `gettimeofday` returns
-1 and stores nothing, and the uninitialised local `now` happens to hold
`{ sec = 0, msec = 123 }`. -/
def clock_failed_env : Env :=
  { rc := -1, the_time := { tv_sec := 0, tv_usec := 0 }, now := { sec := 0, msec := 123 },
    localtime_r := fun _ => scenario_tm, pid := 4321, tid := 4322, stack := fun _ => 170,
    stray := fun _ => [] }

/-- The fields of libc's `struct tm` that `inner_time_encode` sets before it
calls `mktime`. -/
structure tm_in where
  tm_sec : Int
  tm_min : Int
  tm_hour : Int
  tm_mday : Int
  tm_mon : Int
  tm_year : Int
  tm_isdst : Int
  deriving DecidableEq

/-- `inner_time_encode(pt, tv)` with libc's `mktime` as a parameter. -/
def inner_time_encode (mktime : tm_in → Int) (pt : detail_time_str) : Int × time_str :=
  let local_time : tm_in :=
    { tm_year := pt.year - 1900,
      tm_mon := pt.mon,
      tm_mday := pt.day,
      tm_hour := pt.hour,
      tm_min := pt.min,
      tm_sec := pt.sec,
      tm_isdst := 0 }
  (0, { sec := mktime local_time, msec := pt.msec })

/-- Days from 1970-01-01 to the civil date `y-m-d` of the Gregorian calendar,
with `m` in 1..12. -/
def days_from_civil (y m d : Int) : Int :=
  let y1 := if m ≤ 2 then y - 1 else y
  let era := y1 / 400
  let yoe := y1 - era * 400
  let mp := if m > 2 then m - 3 else m + 9
  let doy := (153 * mp + 2) / 5 + d - 1
  let doe := yoe * 365 + yoe / 4 - yoe / 100 + doy
  era * 146097 + doe - 719468

/-- The civil date (year, month in 1..12, day) of the day `z` days after
1970-01-01. -/
def civil_from_days (z : Int) : Int × Int × Int :=
  let z1 := z + 719468
  let era := z1 / 146097
  let doe := z1 - era * 146097
  let yoe := (doe - doe / 1460 + doe / 36524 - doe / 146096) / 365
  let doy := doe - (365 * yoe + yoe / 4 - yoe / 100)
  let mp := (5 * doy + 2) / 153
  let d := doy - (153 * mp + 2) / 5 + 1
  let m := if mp < 10 then mp + 3 else mp - 9
  (yoe + era * 400 + (if m ≤ 2 then 1 else 0), m, d)

/-- What libc's `localtime_r` gives for the instant `t` while the local time is
`offset` seconds ahead of UTC. -/
def zone_localtime (offset : Int) (t : Int) : tm :=
  let l := t + offset
  let days := l / 86400
  let rem := l % 86400
  let c := civil_from_days days
  { tm_sec := rem % 60,
    tm_min := rem / 60 % 60,
    tm_hour := rem / 3600,
    tm_mday := c.2.2,
    tm_mon := c.2.1 - 1,
    tm_year := c.1 - 1900,
    tm_wday := (days + 4) % 7 }

/-- What libc's `mktime` gives in a zone whose standard time is `std` seconds
ahead of UTC and whose daylight saving time is `dst` seconds further ahead:
fields with `tm_isdst > 0` are read as daylight saving time, fields with
`tm_isdst = 0` as standard time. -/
def zone_mktime (std dst : Int) (x : tm_in) : Int :=
  days_from_civil (x.tm_year + 1900) (x.tm_mon + 1) x.tm_mday * 86400
    + x.tm_hour * 3600 + x.tm_min * 60 + x.tm_sec - std
    - (if x.tm_isdst > 0 then dst else 0)

/-- The flags that `logger_log` tests: all but `LOG_HAS_COLOR` and
`LOG_HAS_THREAD_SWC`. -/
def RENDERED_FLAGS : Nat :=
  LOG_HAS_YEAR ||| LOG_HAS_DAY ||| LOG_HAS_TIME ||| LOG_HAS_SENDER ||| LOG_HAS_LEVEL_TEXT
    ||| LOG_HAS_THREAD_ID ||| LOG_HAS_CR ||| LOG_HAS_NEWLINE

/-- The scenario environment with the largest `int` as process id. -/
def wide_pid_env : Env :=
  { scenario_env with pid := 2147483647 }

/-- The state of `logger_log` when the sender is about to be copied: after the
blocks up to the level text (lines 225-288) and the separator of the sender
block (line 293). -/
def sender_start (decor : Nat) (ptime : detail_time_str) (pid tid : Int)
    (stray : Int → List Nat) (level : Int) (s : LogBuf) : LogBuf :=
  let s := put_year decor ptime s
  let s := put_day decor ptime s
  let s := put_time decor ptime s
  let s := put_thread_id decor pid tid s
  let s := put_level_text decor stray level s
  s.sep 32

/-- The offset in `log_buffer` at which the sender starts. -/
def sender_offset (cfg : Config) (env : Env) (level : Int) : Nat :=
  (sender_start cfg.log_decor env.ptime env.pid env.tid env.stray level env.log_buffer).pre

/-- A calendar time: year in 1000..9999, month in 0..11, day in 1..31, hour in
0..23, minute and second in 0..59, millisecond in 0..999. -/
def calendar (t : detail_time_str) : Prop :=
  (1000 ≤ t.year ∧ t.year ≤ 9999) ∧ (0 ≤ t.mon ∧ t.mon ≤ 11) ∧ (1 ≤ t.day ∧ t.day ≤ 31) ∧
  (0 ≤ t.hour ∧ t.hour ≤ 23) ∧ (0 ≤ t.min ∧ t.min ≤ 59) ∧ (0 ≤ t.sec ∧ t.sec ≤ 59) ∧
  (0 ≤ t.msec ∧ t.msec ≤ 999)

/-- The number of bytes before the sender as a function of the mask alone: 4
for the year, 5 for the date, 12 for the time, 14 for the ids, 1 for the label,
each with its separator when something precedes, and the separator of the
sender. -/
def mask_column (decor : Nat) : Nat :=
  let a := if has decor LOG_HAS_YEAR then 4 else 0
  let b := a + (if has decor LOG_HAS_DAY then (if a = 0 then 0 else 1) + 5 else 0)
  let c := b + (if has decor LOG_HAS_TIME then (if b = 0 then 0 else 1) + 12 else 0)
  let d := c + (if has decor LOG_HAS_THREAD_ID then (if c = 0 then 0 else 2) + 14 else 0)
  let e := d + (if has decor LOG_HAS_LEVEL_TEXT then (if d = 0 then 0 else 1) + 1 else 0)
  e + (if e = 0 then 0 else 1)

/-- The text before the sender: the year, date, time, ids and label `lab` and
the separator of the sender. -/
def front_text (decor : Nat) (t : detail_time_str) (pid tid : Int) (lab : List Nat) : List Nat :=
  let p1 := year_text decor t
  let p2 := p1 ++ day_text decor t p1
  let p3 := p2 ++ time_text decor t p2
  let p4 := p3 ++ thread_text decor pid tid p3
  let p5 := p4 ++ label_text decor lab p4
  p5 ++ sep_if p5 [32]

/-- An environment at the other end of the calendar: 9999-12-31 23:59:59.999,
with other ids. -/
def late_env : Env :=
  Env.fixed { tm_sec := 59, tm_min := 59, tm_hour := 23, tm_mday := 31, tm_mon := 11,
              tm_year := 8099, tm_wday := 5 } 999 1 999999999

/-- The text before the level label: the year, date, time and ids. -/
def before_label (decor : Nat) (t : detail_time_str) (pid tid : Int) : List Nat :=
  let p1 := year_text decor t
  let p2 := p1 ++ day_text decor t p1
  let p3 := p2 ++ time_text decor t p2
  p3 ++ thread_text decor pid tid p3

/-! Part 2: lemmas and theorems. -/

theorem decimal_rev_reverse (n : Nat) : (decimal_rev n).reverse = decimal n := by
  unfold decimal_rev decimal
  split <;> simp [List.map_reverse]

theorem decimal_rev_step (n : Nat) (h : 0 < n / 10) :
    decimal_rev n = (n % 10 + 48) :: decimal_rev (n / 10) := by
  have hn : 0 < n := by omega
  have h1 : n ≠ 0 := by omega
  have h2 : n / 10 ≠ 0 := by omega
  unfold decimal_rev
  rw [if_neg h1, if_neg h2, Nat.digits_def' (by norm_num) hn]
  simp

theorem decimal_rev_small (n : Nat) (h : ¬ 0 < n / 10) :
    decimal_rev n = [n % 10 + 48] := by
  have hn : n < 10 := by omega
  unfold decimal_rev
  by_cases h0 : n = 0
  · simp [h0]
  · rw [if_neg h0, Nat.digits_of_lt 10 n h0 hn]
    simp [Nat.mod_eq_of_lt hn]

theorem utoa_digits_eq (fuel : Nat) : ∀ (val : Nat) (buf : List Nat), val < 10 ^ fuel →
    0 < fuel → utoa_digits fuel val buf = buf ++ decimal_rev val := by
  induction fuel with
  | zero =>
    intro val buf _ h0
    omega
  | succ f ih =>
    intro val buf h _
    simp only [utoa_digits]
    split
    · rename_i hpos
      have hlt : val / 10 < 10 ^ f := by
        rw [Nat.div_lt_iff_lt_mul (by norm_num)]
        rw [pow_succ] at h
        exact h
      have hf : 0 < f := by
        rcases Nat.eq_zero_or_pos f with h0 | h0
        · subst h0
          simp at hlt
          omega
        · exact h0
      rw [ih _ _ hlt hf, decimal_rev_step val hpos]
      simp
    · rename_i hpos
      rw [decimal_rev_small val hpos]

theorem utoa_padding_eq (min_dig : Int) (pad : Nat) (fuel : Nat) : ∀ (buf : List Nat),
    min_dig.toNat - buf.length ≤ fuel →
    utoa_padding min_dig pad fuel buf
      = buf ++ List.replicate (min_dig.toNat - buf.length) pad := by
  induction fuel with
  | zero =>
    intro buf h
    have : min_dig.toNat - buf.length = 0 := by omega
    simp [utoa_padding, this]
  | succ f ih =>
    intro buf h
    simp only [utoa_padding]
    split
    · rename_i hlt
      have h1 : min_dig.toNat - (buf ++ [pad]).length ≤ f := by
        simp only [List.length_append, List.length_singleton]
        omega
      rw [ih _ h1]
      have h2 : min_dig.toNat - buf.length
          = (min_dig.toNat - (buf ++ [pad]).length) + 1 := by
        simp only [List.length_append, List.length_singleton]
        omega
      rw [h2, List.replicate_succ]
      simp
    · rename_i hlt
      have : min_dig.toNat - buf.length = 0 := by omega
      simp [this]

theorem getD_at (A rest : List Nat) (x : Nat) (k : Nat) (hk : k = A.length) :
    (A ++ x :: rest).getD k 0 = x := by
  subst hk
  rw [List.getD_eq_getElem?_getD, List.getElem?_append_right (le_refl _)]
  simp

theorem set_at (A rest : List Nat) (x y : Nat) (k : Nat) (hk : k = A.length) :
    (A ++ x :: rest).set k y = A ++ y :: rest := by
  subst hk
  simp

theorem utoa_reverse_eq (fuel : Nat) : ∀ (A M R : List Nat), M ≠ [] → M.length ≤ fuel →
    utoa_reverse fuel (A ++ M ++ R) A.length (A.length + M.length - 1)
      = A ++ M.reverse ++ R := by
  induction fuel with
  | zero =>
    intro A M R hM hlen
    cases M with
    | nil => exact absurd rfl hM
    | cons x M1 => simp at hlen
  | succ f ih =>
    intro A M R hM hlen
    cases M with
    | nil => exact absurd rfl hM
    | cons x M1 =>
      rcases List.eq_nil_or_concat M1 with h1 | ⟨M2, y, h1⟩
      · subst h1
        simp only [utoa_reverse]
        have e : A ++ [x] ++ R = A ++ x :: R := by simp
        have hj : A.length + [x].length - 1 = A.length := by simp
        rw [hj, e, getD_at A R x _ rfl, set_at A R x x _ rfl, set_at A R x x _ rfl]
        rw [if_neg (by omega)]
        simp
      · subst h1
        rw [List.concat_eq_append] at hlen ⊢
        simp only [utoa_reverse]
        have e1 : A ++ (x :: (M2 ++ [y])) ++ R = (A ++ x :: M2) ++ y :: R := by simp
        have e2 : (A ++ x :: M2) ++ y :: R = A ++ x :: (M2 ++ y :: R) := by simp
        have hj : A.length + (x :: (M2 ++ [y])).length - 1 = (A ++ x :: M2).length := by
          simp
        rw [hj, e1, getD_at (A ++ x :: M2) R y _ rfl]
        rw [e2, getD_at A (M2 ++ y :: R) x _ rfl, ← e2,
          set_at (A ++ x :: M2) R y x _ rfl]
        have e3 : (A ++ x :: M2) ++ x :: R = A ++ x :: (M2 ++ x :: R) := by simp
        rw [e3, set_at A (M2 ++ x :: R) x y _ rfl]
        split
        · rename_i hlt
          have hM2 : M2 ≠ [] := by
            intro h
            subst h
            simp at hlt
          have e4 : A ++ y :: (M2 ++ x :: R) = (A ++ [y]) ++ M2 ++ (x :: R) := by simp
          have hi : A.length + 1 = (A ++ [y]).length := by simp
          have hj2 : (A ++ x :: M2).length - 1 = (A ++ [y]).length + M2.length - 1 := by
            simp
          rw [e4, hi, hj2, ih (A ++ [y]) M2 (x :: R) hM2 (by simp at hlen; omega)]
          simp
        · rename_i hlt
          have hM2 : M2.length ≤ 1 := by
            simp at hlt
            omega
          have hrev : M2.reverse = M2 := by
            match M2, hM2 with
            | [], _ => rfl
            | [_], _ => rfl
          simp [hrev]

theorem decimal_rev_length (n : Nat) : (decimal_rev n).length = (decimal n).length := by
  rw [← decimal_rev_reverse, List.length_reverse]

theorem decimal_rev_ne_nil (n : Nat) : decimal_rev n ≠ [] := by
  unfold decimal_rev
  split
  · simp
  · rename_i h
    simp [Nat.digits_eq_nil_iff_eq_zero, h]

theorem decimal_ne_nil (n : Nat) : decimal n ≠ [] := by
  rw [← decimal_rev_reverse]
  simp [decimal_rev_ne_nil]

/-- What `inner_utoa_pad` leaves in the region and returns: the padded decimal
text of the value (as an `unsigned long`), a NUL after it, and the text length. -/
theorem inner_utoa_pad_eq (val : Nat) (min_dig : Int) (pad : Nat) :
    inner_utoa_pad val min_dig pad
      = (lpad min_dig.toNat pad (decimal (val % 18446744073709551616)) ++ [0],
         (lpad min_dig.toNat pad (decimal (val % 18446744073709551616))).length) := by
  have hv : val % 18446744073709551616 < 10 ^ 20 := by
    have := Nat.mod_lt val (show 18446744073709551616 > 0 by norm_num)
    have h2 : (18446744073709551616 : Nat) < 10 ^ 20 := by norm_num
    omega
  unfold inner_utoa_pad
  simp only []
  rw [utoa_digits_eq 20 _ [] hv (by norm_num), List.nil_append,
    utoa_padding_eq min_dig pad _ _ (Nat.sub_le _ _)]
  generalize hv2 : val % 18446744073709551616 = v
  have hne : decimal_rev v ++ List.replicate (min_dig.toNat - (decimal_rev v).length) pad ≠ [] := by
    simp [decimal_rev_ne_nil]
  have h := utoa_reverse_eq _ []
    (decimal_rev v ++ List.replicate (min_dig.toNat - (decimal_rev v).length) pad) [0] hne
    (le_refl _)
  simp only [List.nil_append, List.length_nil, Nat.zero_add] at h
  rw [h]
  simp [lpad, decimal_rev_reverse, decimal_rev_length]
  omega

theorem inner_utoa_eq (val : Nat) :
    inner_utoa val
      = (decimal (val % 18446744073709551616) ++ [0],
         (decimal (val % 18446744073709551616)).length) := by
  unfold inner_utoa
  rw [inner_utoa_pad_eq]
  simp [lpad]

theorem decimal_rev_length_le (k : Nat) : ∀ (n : Nat), n < 10 ^ k → 0 < k →
    (decimal_rev n).length ≤ k := by
  induction k with
  | zero => intro n _ h; omega
  | succ f ih =>
    intro n h _
    by_cases hpos : 0 < n / 10
    · have hlt : n / 10 < 10 ^ f := by
        rw [Nat.div_lt_iff_lt_mul (by norm_num)]
        rw [pow_succ] at h
        exact h
      have hf : 0 < f := by
        rcases Nat.eq_zero_or_pos f with h0 | h0
        · subst h0
          simp at hlt
          omega
        · exact h0
      rw [decimal_rev_step n hpos]
      have := ih _ hlt hf
      simp
      omega
    · rw [decimal_rev_small n hpos]
      simp

theorem decimal_length_le (n : Nat) : (decimal (n % 18446744073709551616)).length ≤ 20 := by
  rw [← decimal_rev_length]
  apply decimal_rev_length_le 20 _ _ (by norm_num)
  have := Nat.mod_lt n (show 18446744073709551616 > 0 by norm_num)
  have h2 : (18446744073709551616 : Nat) < 10 ^ 20 := by norm_num
  omega

theorem decimal_length_pos (n : Nat) : 0 < (decimal n).length :=
  List.length_pos.mpr (decimal_ne_nil n)

theorem to_ulong_lt (i : Int) : to_ulong i < 18446744073709551616 := by
  unfold to_ulong
  omega

theorem to_ulong_mod (i : Int) : to_ulong i % 18446744073709551616 = to_ulong i :=
  Nat.mod_eq_of_lt (to_ulong_lt i)

theorem to_ulong_of_nat (n : Nat) (h : n < 18446744073709551616) : to_ulong (n : Int) = n := by
  unfold to_ulong
  omega

theorem write_at_length (l : List Nat) : ∀ (data : List Nat) (off : Nat),
    (write_at data off l).length = data.length := by
  induction l with
  | nil => intro data off; rfl
  | cons c cs ih =>
    intro data off
    simp [write_at, ih]

theorem set_take_self (data : List Nat) (i c : Nat) :
    (data.set i c).take i = data.take i := by
  rw [List.set_take]
  exact List.set_eq_of_length_le (by simp)

theorem write_at_take_low (l : List Nat) : ∀ (data : List Nat) (off : Nat),
    (write_at data off l).take off = data.take off := by
  induction l with
  | nil => intro data off; rfl
  | cons c cs ih =>
    intro data off
    simp only [write_at]
    have h := ih (data.set off c) (off + 1)
    have h2 : (write_at (data.set off c) (off + 1) cs).take off
        = ((write_at (data.set off c) (off + 1) cs).take (off + 1)).take off := by
      rw [List.take_take]
      simp
    rw [h2, h, List.take_take]
    simp [set_take_self]

theorem set_take_succ (data : List Nat) (i c : Nat) (h : i < data.length) :
    (data.set i c).take (i + 1) = data.take i ++ [c] := by
  rw [List.take_succ, set_take_self]
  simp [h]

theorem write_at_take (l : List Nat) : ∀ (data : List Nat) (off k : Nat),
    k ≤ l.length → off + k ≤ data.length →
    (write_at data off l).take (off + k) = data.take off ++ l.take k := by
  induction l with
  | nil =>
    intro data off k hk _
    have : k = 0 := by simpa using hk
    subst this
    simp [write_at]
  | cons c cs ih =>
    intro data off k hk hlen
    cases k with
    | zero => simpa using write_at_take_low (c :: cs) data off
    | succ k =>
      simp only [write_at]
      have h := ih (data.set off c) (off + 1) k (by simpa using hk) (by simp; omega)
      have e : off + (k + 1) = off + 1 + k := by omega
      rw [e, h, set_take_succ data off c (by omega)]
      simp

theorem getD_of_take (X A : List Nat) (c : Nat) (n : Nat)
    (h : X.take (n + 1) = A ++ [c]) (hA : A.length = n) : X.getD n 0 = c := by
  have h1 : (X.take (n + 1))[n]? = X[n]? := by simp
  rw [List.getD_eq_getElem?_getD, ← h1, h, List.getElem?_append_right (by omega)]
  simp [hA]

theorem Emits.refl (s : LogBuf) : Emits True s s [] :=
  ⟨rfl, by simp, by simp, fun _ h _ => h⟩

theorem Emits.trans {p q : Prop} {s s' s2 : LogBuf} {a b : List Nat}
    (h1 : Emits p s s' a) (h2 : Emits q s' s2 b) : Emits (p ∧ q) s s2 (a ++ b) := by
  refine ⟨h2.len.trans h1.len, ?_, ?_, ?_⟩
  · rw [h2.pre, h1.pre, List.length_append]; omega
  · intro h
    have hb := h2.pre
    have hl := h1.len
    rw [h2.text (by omega), h1.text (by omega), List.append_assoc]
  · intro hs hok h
    have hb := h2.pre
    have hl := h1.len
    exact h2.ok hs.2 (h1.ok hs.1 hok (by omega)) (by omega)

theorem Emits.mono {p q : Prop} {s s' : LogBuf} {a : List Nat}
    (h : Emits p s s' a) (hq : q → p) : Emits q s s' a :=
  ⟨h.len, h.pre, h.text, fun hs => h.ok (hq hs)⟩

theorem Emits.cast {p : Prop} {s s' : LogBuf} {a b : List Nat}
    (h : Emits p s s' a) (e : a = b) : Emits p s s' b := e ▸ h

theorem Emits.pre0 {p : Prop} {s s' : LogBuf} {a : List Nat}
    (h : Emits p s s' a) (hs : s.pre = 0) : s'.pre = a.length := by
  rw [h.pre, hs, Nat.zero_add]

theorem putc_emits (s : LogBuf) (c : Nat) : Emits True s (s.putc c) [c] := by
  refine ⟨by simp [LogBuf.putc], by simp [LogBuf.putc], ?_, ?_⟩
  · intro h
    simp only [LogBuf.putc] at h ⊢
    exact set_take_succ s.data s.pre c (by omega)
  · intro _ hok h
    simp only [LogBuf.putc] at h ⊢
    simp [hok]
    omega

theorem sep_emits (s : LogBuf) (c : Nat) :
    Emits True s (s.sep c) (if s.pre ≠ 0 then [c] else []) := by
  unfold LogBuf.sep
  split
  · exact putc_emits s c
  · exact Emits.refl s

theorem store_emits (s : LogBuf) (bs junk : List Nat) :
    Emits (junk.length ≤ 1) s ((s.store (bs ++ junk)).advance bs.length) bs := by
  refine ⟨by simp [LogBuf.store, LogBuf.advance, write_at_length],
    by simp [LogBuf.store, LogBuf.advance], ?_, ?_⟩
  · intro h
    simp only [LogBuf.store, LogBuf.advance] at h ⊢
    rw [write_at_take _ _ _ _ (by simp) h]
    simp
  · intro hj hok h
    simp only [LogBuf.store, LogBuf.advance, List.length_append] at h ⊢
    simp [hok]
    omega

theorem utoa_pad_emits (s : LogBuf) (val : Nat) (min_dig : Int) (pad : Nat) :
    Emits True s (s.utoa_pad val min_dig pad)
      (lpad min_dig.toNat pad (decimal (val % 18446744073709551616))) := by
  unfold LogBuf.utoa_pad
  rw [inner_utoa_pad_eq]
  exact (store_emits s _ [0]).mono (fun _ => by simp)

theorem utoa_emits (s : LogBuf) (val : Nat) :
    Emits True s (s.utoa val) (decimal (val % 18446744073709551616)) := by
  unfold LogBuf.utoa
  rw [inner_utoa_eq]
  exact (store_emits s _ [0]).mono (fun _ => by simp)

theorem copy_str_emits (bs : List Nat) : ∀ (s : LogBuf), Emits True s (copy_str bs s) bs := by
  induction bs with
  | nil => intro s; exact Emits.refl s
  | cons c cs ih =>
    intro s
    simp only [copy_str]
    exact (((putc_emits s c).trans (ih (s.putc c))).mono (fun _ => ⟨trivial, trivial⟩)).cast
      (by simp)

theorem copy_n_emits (n : Nat) : ∀ (mem : List Nat) (s : LogBuf), n ≤ mem.length →
    Emits True s (copy_n n mem s) (mem.take n) := by
  induction n with
  | zero => intro mem s _; simpa [copy_n] using Emits.refl s
  | succ n ih =>
    intro mem s h
    cases mem with
    | nil => simp at h
    | cons c cs =>
      simp only [copy_n, List.headD_cons, List.tail_cons]
      exact (((putc_emits s c).trans (ih cs (s.putc c) (by simpa using h))).mono
        (fun _ => ⟨trivial, trivial⟩)).cast (by simp)

theorem copy_cstr_emits (bs : List Nat) : ∀ (rest : List Nat) (s : LogBuf),
    (∀ c ∈ bs, c ≠ 0) → Emits True s (copy_cstr (bs ++ 0 :: rest) s) bs := by
  induction bs with
  | nil => intro rest s _; simpa [copy_cstr] using Emits.refl s
  | cons c cs ih =>
    intro rest s h
    have hc : c ≠ 0 := h c (by simp)
    simp only [List.cons_append, copy_cstr, if_pos hc]
    exact (((putc_emits s c).trans (ih rest (s.putc c) (fun x hx => h x (by simp [hx])))).mono
      (fun _ => ⟨trivial, trivial⟩)).cast (by simp)

theorem pad_spaces_emits (fuel : Nat) : ∀ (n : Nat) (s : LogBuf), THREAD_WIDTH - n ≤ fuel →
    Emits True s (pad_spaces fuel n s) (List.replicate (THREAD_WIDTH - n) 32) := by
  induction fuel with
  | zero =>
    intro n s h
    have : THREAD_WIDTH - n = 0 := by omega
    simpa [pad_spaces, this] using Emits.refl s
  | succ f ih =>
    intro n s h
    simp only [pad_spaces]
    split
    · rename_i hlt
      have e : THREAD_WIDTH - n = (THREAD_WIDTH - (n + 1)) + 1 := by omega
      rw [e, List.replicate_succ]
      exact (((putc_emits s 32).trans (ih (n + 1) (s.putc 32) (by omega))).mono
        (fun _ => ⟨trivial, trivial⟩)).cast (by simp)
    · rename_i hlt
      have : THREAD_WIDTH - n = 0 := by omega
      simpa [this] using Emits.refl s

theorem decimal_no_nul (n : Nat) : ∀ c ∈ decimal n, c ≠ 0 := by
  intro c hc
  unfold decimal at hc
  split at hc
  · simp at hc; omega
  · simp at hc
    obtain ⟨a, _, rfl⟩ := hc
    omega

theorem sep_if_eq (s : LogBuf) (prev sp : List Nat) (hp : s.pre = prev.length) :
    (if s.pre ≠ 0 then sp else []) = sep_if prev sp := by
  unfold sep_if
  by_cases h : prev = []
  · subst h
    simp [hp]
  · have : prev.length ≠ 0 := by simpa using h
    simp [hp, h, this]

theorem put_id_emits (id : Int) (s : LogBuf) :
    Emits ((decimal (to_ulong id)).length + 1 ≤ THREADID_SIZE) s (put_id id s)
      (id_field (decimal (to_ulong id))) := by
  have hno := decimal_no_nul (to_ulong id)
  unfold put_id
  rw [inner_utoa_eq, to_ulong_mod]
  simp only []
  generalize decimal (to_ulong id) = text at *
  have h0 : Emits (text.length + 1 ≤ THREADID_SIZE) s
      { s with ok := s.ok && decide ((text ++ [0]).length ≤ THREADID_SIZE) } [] := by
    refine ⟨rfl, by simp, by simp, ?_⟩
    intro hc hok _
    simp [hok]
    exact hc
  unfold id_field
  split
  · rename_i hle
    have h1 := pad_spaces_emits THREAD_WIDTH text.length
      { s with ok := s.ok && decide ((text ++ [0]).length ≤ THREADID_SIZE) } (Nat.sub_le _ _)
    have h2 := copy_cstr_emits text [] (pad_spaces THREAD_WIDTH text.length
      { s with ok := s.ok && decide ((text ++ [0]).length ≤ THREADID_SIZE) }) hno
    have e : 6 = THREAD_WIDTH := rfl
    rw [if_pos (e ▸ hle)]
    exact (((h0.trans h1).trans h2).mono (fun h => ⟨⟨h, trivial⟩, trivial⟩)).cast (by simp [THREAD_WIDTH])
  · rename_i hle
    have e : 6 = THREAD_WIDTH := rfl
    rw [if_neg (e ▸ hle)]
    have h1 := copy_n_emits THREAD_WIDTH (text ++ [0])
      { s with ok := s.ok && decide ((text ++ [0]).length ≤ THREADID_SIZE) }
      (by simp [THREAD_WIDTH]; omega)
    refine ((h0.trans h1).mono (fun h => ⟨h, trivial⟩)).cast ?_
    simp only [List.nil_append, THREAD_WIDTH]
    rw [List.take_append_of_le_length (by omega)]

theorem put_year_emits (decor : Nat) (t : detail_time_str) (s : LogBuf) :
    Emits True s (put_year decor t s) (year_text decor t) := by
  unfold put_year year_text
  split
  · exact (utoa_emits s _).cast (by rw [to_ulong_mod])
  · exact Emits.refl s

theorem put_day_emits (decor : Nat) (t : detail_time_str) (s : LogBuf) (prev : List Nat)
    (hp : s.pre = prev.length) :
    Emits True s (put_day decor t s) (day_text decor t prev) := by
  unfold put_day day_text
  split
  · have h1 := sep_emits s 45
    rw [sep_if_eq s prev [45] hp] at h1
    have h2 := ((h1.trans (utoa_pad_emits _ (to_ulong (t.mon + 1)) 2 48)).trans
      (putc_emits _ 45)).trans (utoa_pad_emits _ (to_ulong t.day) 2 48)
    exact (h2.mono (fun _ => ⟨⟨⟨trivial, trivial⟩, trivial⟩, trivial⟩)).cast
      (by simp [to_ulong_mod])
  · exact Emits.refl s

theorem put_time_emits (decor : Nat) (t : detail_time_str) (s : LogBuf) (prev : List Nat)
    (hp : s.pre = prev.length) :
    Emits True s (put_time decor t s) (time_text decor t prev) := by
  unfold put_time time_text
  split
  · have h1 := sep_emits s 32
    rw [sep_if_eq s prev [32] hp] at h1
    have h2 := ((((((h1.trans (utoa_pad_emits _ (to_ulong t.hour) 2 48)).trans
      (putc_emits _ 58)).trans (utoa_pad_emits _ (to_ulong t.min) 2 48)).trans
      (putc_emits _ 58)).trans (utoa_pad_emits _ (to_ulong t.sec) 2 48)).trans
      (putc_emits _ 46)).trans (utoa_pad_emits _ (to_ulong t.msec) 3 48)
    exact (h2.mono (fun _ => by simp)).cast (by simp [to_ulong_mod])
  · exact Emits.refl s

theorem put_thread_id_emits (decor : Nat) (pid tid : Int) (s : LogBuf) (prev : List Nat)
    (hp : s.pre = prev.length) :
    Emits (has decor LOG_HAS_THREAD_ID = true → ids_fit pid tid) s
      (put_thread_id decor pid tid s) (thread_text decor pid tid prev) := by
  unfold put_thread_id thread_text
  split
  · rename_i hd
    have h1 : Emits True s (if s.pre ≠ 0 then (s.putc 32).putc 32 else s)
        (sep_if prev [32, 32]) := by
      rw [← sep_if_eq s prev [32, 32] hp]
      split
      · exact ((putc_emits s 32).trans (putc_emits _ 32)).mono (fun _ => ⟨trivial, trivial⟩)
      · exact Emits.refl s
    have h2 := (((h1.trans (put_id_emits pid _)).trans (putc_emits _ 32)).trans
      (putc_emits _ 32)).trans (put_id_emits tid _)
    exact (h2.mono (fun h => by have := h hd; simp [ids_fit] at this ⊢; omega)).cast (by simp)
  · exact (Emits.refl s).mono (fun _ => trivial)

theorem ltexts_getD (level : Int) (h : 0 ≤ level ∧ level < 6) :
    ltexts.getD level.toNat [] = level_label level := by
  obtain ⟨n, rfl⟩ := Int.eq_ofNat_of_zero_le h.1
  have hn : n < 6 := by omega
  interval_cases n <;> rfl

theorem level_label_length (level : Int) (h : 0 ≤ level ∧ level < 6) :
    (level_label level).length = 1 := by
  obtain ⟨n, rfl⟩ := Int.eq_ofNat_of_zero_le h.1
  have hn : n < 6 := by omega
  interval_cases n <;> rfl

theorem label_byte_length (stray : Int → List Nat) (level : Int) :
    (label_byte stray level).length = 1 := by
  unfold label_byte
  simp

theorem label_byte_eq (stray : Int → List Nat) (level : Int) (h : 0 ≤ level ∧ level < 6) :
    label_byte stray level = level_label level := by
  unfold label_byte
  rw [if_pos h, ltexts_getD level h]
  have := level_label_length level h
  rw [List.take_append_of_le_length (by omega)]
  exact List.take_of_length_le (by omega)

theorem put_level_text_emits (decor : Nat) (stray : Int → List Nat) (level : Int)
    (s : LogBuf) (prev : List Nat) (hp : s.pre = prev.length) :
    Emits (has decor LOG_HAS_LEVEL_TEXT = true → 0 ≤ level ∧ level < 6) s
      (put_level_text decor stray level s) (label_text decor (label_byte stray level) prev) := by
  unfold put_level_text label_text
  split
  · rename_i hd
    have h1 := sep_emits s 32
    rw [sep_if_eq s prev [32] hp] at h1
    simp only []
    split
    · rename_i hl
      have e := label_byte_eq stray level hl
      have h2 := store_emits (s.sep 32) (level_label level) [0]
      rw [level_label_length level hl, ← ltexts_getD level hl] at h2
      rw [e, ← ltexts_getD level hl]
      exact (h1.trans h2).mono (fun _ => ⟨trivial, by simp⟩)
    · rename_i hl
      have h0 : Emits False (s.sep 32) { s.sep 32 with ok := false } [] :=
        ⟨rfl, by simp, by simp, fun hf => hf.elim⟩
      have e : stray level ++ [0]
          = (stray level ++ [0]).take 1 ++ (stray level ++ [0]).drop 1 :=
        (List.take_append_drop 1 _).symm
      have h2 := store_emits { s.sep 32 with ok := false } ((stray level ++ [0]).take 1)
        ((stray level ++ [0]).drop 1)
      rw [← e] at h2
      have e1 : ((stray level ++ [0]).take 1).length = 1 := by simp
      rw [e1] at h2
      have e2 : label_byte stray level = (stray level ++ [0]).take 1 := by
        unfold label_byte
        rw [if_neg hl]
      rw [e2]
      exact (((h1.trans h0).trans h2).mono (fun h => absurd (h hd) hl)).cast (by simp)
  · exact (Emits.refl s).mono (fun _ => trivial)

theorem put_sender_emits (decor : Nat) (sender : List Nat) (s : LogBuf) (prev : List Nat)
    (hp : s.pre = prev.length) :
    Emits True s (put_sender decor sender s) (sender_text decor sender prev) := by
  unfold put_sender sender_text
  split
  · have h1 := sep_emits s 32
    rw [sep_if_eq s prev [32] hp] at h1
    simp only []
    split
    · rename_i hl
      have h2 := (h1.trans (copy_str_emits sender _)).trans (putc_emits _ 58)
      exact (h2.mono (fun _ => by simp)).cast
        (by rw [List.take_of_length_le (by simpa [SENDER_WIDTH] using hl)])
    · rename_i hl
      have h2 := (h1.trans (copy_n_emits SENDER_WIDTH sender _ (by omega))).trans
        (putc_emits _ 58)
      exact (h2.mono (fun _ => by simp)).cast (by simp [SENDER_WIDTH])
  · exact Emits.refl s

theorem assemble_emits (decor : Nat) (t : detail_time_str) (pid tid : Int)
    (stray : Int → List Nat) (sender : List Nat) (level : Int) (s : LogBuf) (hs : s.pre = 0) :
    Emits (in_bounds decor pid tid level) s (assemble decor t pid tid stray sender level s)
      (prefix_text decor t pid tid (label_byte stray level) sender) := by
  unfold assemble prefix_text
  simp only []
  have h1 := put_year_emits decor t s
  have h2 := h1.trans (put_day_emits decor t _ _ (h1.pre0 hs))
  have h3 := h2.trans (put_time_emits decor t _ _ (h2.pre0 hs))
  have h4 := h3.trans (put_thread_id_emits decor pid tid _ _ (h3.pre0 hs))
  have h5 := h4.trans (put_level_text_emits decor stray level _ _ (h4.pre0 hs))
  have h6 := h5.trans (put_sender_emits decor sender _ _ (h5.pre0 hs))
  exact (h6.mono (fun h => by simp [in_bounds] at h; simp; exact h)).cast (by simp)

theorem lpad_length_le (w c : Nat) (n : Int) (hw : w ≤ 20) :
    (lpad w c (decimal (to_ulong n))).length ≤ 20 := by
  have := decimal_length_le (to_ulong n)
  rw [to_ulong_mod] at this
  unfold lpad
  simp
  omega

theorem id_field_length (text : List Nat) : (id_field text).length = 6 := by
  unfold id_field
  split
  · simp; omega
  · simp; omega

theorem sep_if_length_le (prev sp : List Nat) : (sep_if prev sp).length ≤ sp.length := by
  unfold sep_if
  split <;> simp

theorem prefix_text_length_le (decor : Nat) (t : detail_time_str) (pid tid : Int)
    (lab sender : List Nat) (hlab : lab.length ≤ 1) :
    (prefix_text decor t pid tid lab sender).length ≤ 191 := by
  have a1 : (year_text decor t).length ≤ 20 := by
    unfold year_text
    split
    · have := decimal_length_le (to_ulong t.year)
      rwa [to_ulong_mod] at this
    · simp
  have a2 : ∀ prev, (day_text decor t prev).length ≤ 42 := by
    intro prev
    unfold day_text
    split
    · have := sep_if_length_le prev [45]
      have := lpad_length_le 2 48 (t.mon + 1) (by norm_num)
      have := lpad_length_le 2 48 t.day (by norm_num)
      simp at *
      omega
    · simp
  have a3 : ∀ prev, (time_text decor t prev).length ≤ 84 := by
    intro prev
    unfold time_text
    split
    · have := sep_if_length_le prev [32]
      have := lpad_length_le 2 48 t.hour (by norm_num)
      have := lpad_length_le 2 48 t.min (by norm_num)
      have := lpad_length_le 2 48 t.sec (by norm_num)
      have := lpad_length_le 3 48 t.msec (by norm_num)
      simp at *
      omega
    · simp
  have a4 : ∀ prev, (thread_text decor pid tid prev).length ≤ 16 := by
    intro prev
    unfold thread_text
    split
    · have := sep_if_length_le prev [32, 32]
      simp [id_field_length] at *
      omega
    · simp
  have a5 : ∀ prev, (label_text decor lab prev).length ≤ 2 := by
    intro prev
    unfold label_text
    split
    · have := sep_if_length_le prev [32]
      simp at *
      omega
    · simp
  have a6 : ∀ prev, (sender_text decor sender prev).length ≤ 27 := by
    intro prev
    unfold sender_text
    split
    · have := sep_if_length_le prev [32]
      simp at *
      omega
    · simp
  unfold prefix_text
  simp only [List.length_append]
  have b2 := a2 (year_text decor t)
  have b3 := a3 (year_text decor t ++ day_text decor t (year_text decor t))
  generalize year_text decor t ++ day_text decor t (year_text decor t) = p2 at *
  have b4 := a4 (p2 ++ time_text decor t p2)
  generalize p2 ++ time_text decor t p2 = p3 at *
  have b5 := a5 (p3 ++ thread_text decor pid tid p3)
  generalize p3 ++ thread_text decor pid tid p3 = p4 at *
  have b6 := a6 (p4 ++ label_text decor lab p4)
  simp only [List.length_append] at *
  omega

theorem log_buffer_length (env : Env) : env.log_buffer.data.length = 1024 := by
  simp [Env.log_buffer, LOG_BUFFER_MAX_SIZE]

theorem prefix_state_emits (cfg : Config) (env : Env) (sender : List Nat) (level : Int) :
    Emits (in_bounds cfg.log_decor env.pid env.tid level) env.log_buffer
      (prefix_state cfg env sender level)
      (prefix_text cfg.log_decor env.ptime env.pid env.tid (label_byte env.stray level) sender) :=
  assemble_emits _ _ _ _ _ _ _ _ rfl

theorem prefix_state_length (cfg : Config) (env : Env) (sender : List Nat) (level : Int) :
    (prefix_state cfg env sender level).data.length = 1024 := by
  rw [(prefix_state_emits cfg env sender level).len, log_buffer_length]

theorem prefix_state_pre (cfg : Config) (env : Env) (sender : List Nat) (level : Int) :
    (prefix_state cfg env sender level).pre
      = (prefix_text cfg.log_decor env.ptime env.pid env.tid
          (label_byte env.stray level) sender).length :=
  (prefix_state_emits cfg env sender level).pre0 rfl

theorem prefix_state_pre_le (cfg : Config) (env : Env) (sender : List Nat) (level : Int) :
    (prefix_state cfg env sender level).pre ≤ 191 := by
  rw [prefix_state_pre]
  exact prefix_text_length_le _ _ _ _ _ _ (by rw [label_byte_length])

theorem prefix_state_text (cfg : Config) (env : Env) (sender : List Nat) (level : Int) :
    (prefix_state cfg env sender level).text
      = prefix_text cfg.log_decor env.ptime env.pid env.tid (label_byte env.stray level) sender := by
  have h := prefix_state_emits cfg env sender level
  have hle := prefix_state_pre_le cfg env sender level
  have := h.text (by rw [log_buffer_length]; omega)
  simpa [LogBuf.text, Env.log_buffer] using this

theorem prefix_state_ok (cfg : Config) (env : Env) (sender : List Nat) (level : Int)
    (h : in_bounds cfg.log_decor env.pid env.tid level) :
    (prefix_state cfg env sender level).ok = true := by
  have hle := prefix_state_pre_le cfg env sender level
  exact (prefix_state_emits cfg env sender level).ok h rfl (by rw [log_buffer_length]; omega)

theorem size_sub_eq (a b : Nat) (hb : b ≤ a) (ha : a < 18446744073709551616) :
    size_sub a b = a - b := by
  unfold size_sub
  omega

theorem int_to_size_nat (n : Nat) (h : n < 18446744073709551616) : int_to_size (n : Int) = n := by
  unfold int_to_size
  omega

theorem size_to_int_nat (n : Nat) (h : n < 2147483648) : size_to_int n = (n : Int) := by
  unfold size_to_int
  omega

theorem poke_length (s : LogBuf) (i : Int) (c : Nat) :
    (poke s i c).data.length = s.data.length := by
  simp [poke]

theorem poke_getD (s : LogBuf) (i : Int) (c : Nat) (h : i.toNat < s.data.length) :
    (poke s i c).data.getD i.toNat 0 = c := by
  simp [poke, h]

theorem vsnprintf_length (s : LogBuf) (n : Nat) (out : Expansion) :
    (vsnprintf s n out).1.data.length = s.data.length := by
  unfold vsnprintf
  cases out with
  | failed left => simp [LogBuf.store, write_at_length]
  | text m =>
    simp only []
    split
    · rfl
    · simp [LogBuf.store, write_at_length]

theorem expand_length (level : Int) (msg : Expansion) (s : LogBuf) :
    (expand level msg s).2.1.data.length = s.data.length := by
  unfold expand
  simp only []
  split <;> simp [vsnprintf_length]

theorem terminate_length (decor : Nat) (s : LogBuf) (len : Int) :
    (terminate decor s len).1.data.length = s.data.length := by
  unfold terminate
  simp only []
  split_ifs <;> simp [poke_length]

/-- The buffer keeps its size through lines 305-334. -/
theorem finish_length (decor : Nat) (level : Int) (msg : Expansion) (s : LogBuf) :
    (finish decor level msg s).2.1.data.length = s.data.length := by
  simp [finish, terminate_length, expand_length]

/-- The length passed on is positive, at most 1023, and the byte there is NUL. -/
theorem terminate_terminated (decor : Nat) (s : LogBuf) (len : Int)
    (hs : s.data.length = 1024) :
    0 < (terminate decor s len).2 ∧ (terminate decor s len).2 ≤ 1023 ∧
    (terminate decor s len).1.data.getD (terminate decor s len).2.toNat 0 = 0 := by
  have e1 : size_to_int LOG_BUFFER_MAX_SIZE = 1024 := by decide
  have e2 : size_to_int (size_sub LOG_BUFFER_MAX_SIZE 1) = 1023 := by decide
  have e3 : ((size_sub LOG_BUFFER_MAX_SIZE 1 : Nat) : Int) = 1023 := by decide
  unfold terminate
  simp only [e1, e2, e3]
  split_ifs with h1 h2 h3 h3 h2 h3 h3
  all_goals simp only []
  all_goals refine ⟨by omega, by omega, ?_⟩
  all_goals apply poke_getD
  all_goals simp only [poke_length, hs]
  all_goals omega

theorem error_text_length : error_text.length = 29 := by decide

theorem size_of_pre (pre : Nat) (hp : pre ≤ 1023) :
    size_sub LOG_BUFFER_MAX_SIZE (int_to_size (pre : Int)) = 1024 - pre := by
  rw [int_to_size_nat pre (by omega), size_sub_eq _ _ (by simp [LOG_BUFFER_MAX_SIZE]; omega)
    (by simp [LOG_BUFFER_MAX_SIZE])]
  rfl

theorem expand_base_pre (msg : Expansion) (s : LogBuf) : (expand_base msg s).pre = s.pre := by
  cases msg <;> rfl

theorem expand_base_length (msg : Expansion) (s : LogBuf) :
    (expand_base msg s).data.length = s.data.length := by
  cases msg with
  | failed left => simp [expand_base, LogBuf.store, write_at_length]
  | text m => rfl

theorem expand_base_take (msg : Expansion) (s : LogBuf) :
    (expand_base msg s).data.take s.pre = s.data.take s.pre := by
  cases msg with
  | failed left => simp [expand_base, LogBuf.store, write_at_take_low]
  | text m => rfl

theorem expand_base_ok (msg : Expansion) (s : LogBuf) (hs : s.data.length = 1024)
    (hp : s.pre ≤ 1023) : (expand_base msg s).ok = s.ok := by
  cases msg with
  | failed left =>
    simp [expand_base, LogBuf.store, hs]
    intro _
    omega
  | text m => rfl

theorem expand_eq (level : Int) (msg : Expansion) (s : LogBuf) (hp : s.pre ≤ 1023) :
    expand level msg s
      = ((expansion level msg).1,
         (expand_base msg s).store ((expansion level msg).2.take (1023 - s.pre) ++ [0]),
         ((expansion level msg).2.length : Int)) := by
  have hn : 1024 - s.pre ≠ 0 := by omega
  have hn1 : 1024 - s.pre - 1 = 1023 - s.pre := by omega
  unfold expand
  simp only [size_of_pre s.pre hp]
  cases msg with
  | failed left =>
    simp only [vsnprintf, expansion, expand_base, if_neg hn, hn1]
    simp
  | text m =>
    simp only [vsnprintf, expansion, expand_base, if_neg hn, hn1]
    simp

theorem clip_eq (pre : Nat) (print_len : Int) (hp : pre ≤ 1023) :
    clip (pre : Int) print_len
      = if print_len < 1 ∨ print_len ≥ 1024 - (pre : Int) then 1023 - (pre : Int) else print_len := by
  unfold clip
  rw [size_of_pre pre hp, size_to_int_nat _ (by omega),
    size_sub_eq _ _ (by omega) (by omega), size_to_int_nat _ (by omega)]
  have e1 : ((1024 - pre : Nat) : Int) = 1024 - (pre : Int) := by omega
  have e2 : ((1024 - pre - 1 : Nat) : Int) = 1023 - (pre : Int) := by omega
  rw [e1, e2]

theorem poke_take_succ (s : LogBuf) (k c : Nat) (h : k < s.data.length) :
    (poke s (k : Int) c).data.take (k + 1) = s.data.take k ++ [c] := by
  simp only [poke, Int.toNat_ofNat]
  exact set_take_succ s.data k c h

theorem poke_take_self (s : LogBuf) (k c : Nat) :
    (poke s (k : Int) c).data.take k = s.data.take k := by
  simp only [poke, Int.toNat_ofNat]
  exact set_take_self s.data k c

theorem poke_ok (s : LogBuf) (k c : Nat) (h : k < s.data.length) :
    (poke s (k : Int) c).ok = s.ok := by
  simp [poke, h]

/-- The branch of lines 317-324: the terminators follow the text and the NUL
follows them. -/
theorem terminate_fit (decor : Nat) (s : LogBuf) (L : Nat) (hs : s.data.length = 1024)
    (h0 : 0 < L) (h1 : L < 1022) :
    (terminate decor s (L : Int)).2 = ((L + (terminators decor).length : Nat) : Int) ∧
    (terminate decor s (L : Int)).1.data.take (L + (terminators decor).length)
      = s.data.take L ++ terminators decor ∧
    (terminate decor s (L : Int)).1.ok = s.ok := by
  have e1 : size_to_int LOG_BUFFER_MAX_SIZE = 1024 := by decide
  have hc : (L : Int) > 0 ∧ (L : Int) < 1024 - 2 := by omega
  unfold terminate terminators
  simp only [e1, if_pos hc]
  cases has decor LOG_HAS_CR <;> cases has decor LOG_HAS_NEWLINE
  · simp only [Bool.false_eq_true, if_false]
    refine ⟨by simp, ?_, poke_ok _ _ _ (by omega)⟩
    simpa using poke_take_self s L 0
  · simp only [Bool.false_eq_true, if_false, if_true]
    have e : (L : Int) + 1 = ((L + 1 : Nat) : Int) := by omega
    rw [e]
    refine ⟨by simp, ?_, ?_⟩
    · simp only [List.nil_append, List.length_singleton]
      rw [poke_take_self, poke_take_succ _ _ _ (by omega)]
    · rw [poke_ok _ _ _ (by rw [poke_length]; omega), poke_ok _ _ _ (by omega)]
  · simp only [Bool.false_eq_true, if_false, if_true]
    have e : (L : Int) + 1 = ((L + 1 : Nat) : Int) := by omega
    rw [e]
    refine ⟨by simp, ?_, ?_⟩
    · simp only [List.append_nil, List.length_singleton]
      rw [poke_take_self, poke_take_succ _ _ _ (by omega)]
    · rw [poke_ok _ _ _ (by rw [poke_length]; omega), poke_ok _ _ _ (by omega)]
  · simp only [if_true]
    have e : (L : Int) + 1 = ((L + 1 : Nat) : Int) := by omega
    have e' : ((L + 1 : Nat) : Int) + 1 = ((L + 1 + 1 : Nat) : Int) := by omega
    rw [e, e']
    refine ⟨by simp; omega, ?_, ?_⟩
    · simp only [List.length_append, List.length_singleton]
      rw [poke_take_self, poke_take_succ _ _ _ (by rw [poke_length]; omega),
        poke_take_succ _ _ _ (by omega)]
      simp
    · rw [poke_ok _ _ _ (by simp only [poke_length]; omega),
        poke_ok _ _ _ (by rw [poke_length]; omega), poke_ok _ _ _ (by omega)]

/-- A text that fits: the finished line is the prefix, the text, the
terminators and a NUL; the length counts all but the NUL. -/
theorem finish_fit (decor : Nat) (level : Int) (msg : Expansion) (s : LogBuf)
    (hs : s.data.length = 1024) (hb : (expansion level msg).2 ≠ [])
    (hfit : s.pre + (expansion level msg).2.length ≤ 1021) :
    (finish decor level msg s).1 = (expansion level msg).1 ∧
    (finish decor level msg s).2.2
      = ((s.pre + (expansion level msg).2.length + (terminators decor).length : Nat) : Int) ∧
    (finish decor level msg s).2.1.data.take
        (s.pre + (expansion level msg).2.length + (terminators decor).length)
      = s.text ++ (expansion level msg).2 ++ terminators decor ∧
    (finish decor level msg s).2.1.data.getD
        (s.pre + (expansion level msg).2.length + (terminators decor).length) 0 = 0 ∧
    (finish decor level msg s).2.1.ok = s.ok := by
  generalize hbody : (expansion level msg).2 = body at *
  have hlen : 0 < body.length := List.length_pos.mpr hb
  have htake : body.take (1023 - s.pre) = body := List.take_of_length_le (by omega)
  have hfin : finish decor level msg s
      = ((expansion level msg).1,
         (terminate decor ((expand_base msg s).store (body ++ [0])) ((s.pre + body.length : Nat) : Int)).1,
         (terminate decor ((expand_base msg s).store (body ++ [0])) ((s.pre + body.length : Nat) : Int)).2) := by
    unfold finish
    simp only [expand_eq level msg s (by omega), hbody, htake, clip_eq s.pre _ (by omega)]
    rw [if_neg (by omega)]
    have e : (s.pre : Int) + (body.length : Int) = ((s.pre + body.length : Nat) : Int) := by
      omega
    rw [e]
  have hst : ((expand_base msg s).store (body ++ [0])).data.length = 1024 := by
    simp [LogBuf.store, write_at_length, hs, expand_base_length]
  have ht := terminate_fit decor ((expand_base msg s).store (body ++ [0])) (s.pre + body.length) hst
    (by omega) (by omega)
  have hz := terminate_terminated decor ((expand_base msg s).store (body ++ [0]))
    ((s.pre + body.length : Nat) : Int) hst
  rw [hfin]
  simp only []
  refine ⟨trivial, ht.1, ?_, ?_, ?_⟩
  · rw [ht.2.1]
    have := write_at_take (body ++ [0]) (expand_base msg s).data s.pre body.length (by simp)
      (by rw [expand_base_length]; omega)
    simp only [LogBuf.store, LogBuf.text, expand_base_pre]
    rw [this, expand_base_take]
    simp
  · have h3 := hz.2.2
    rw [ht.1] at h3
    simpa using h3
  · rw [ht.2.2]
    simp [LogBuf.store, hs, expand_base_pre, expand_base_length,
      expand_base_ok msg s hs (by omega)]
    intro _
    omega

theorem poke_ok_nat (s : LogBuf) (k c : Nat) (h : k < s.data.length) (hok : s.ok = true) :
    (poke s (k : Int) c).ok = true := by
  rw [poke_ok s k c h, hok]

/-- No access of lines 317-334 leaves the array. -/
theorem terminate_ok (decor : Nat) (s : LogBuf) (len : Int) (hs : s.data.length = 1024)
    (hok : s.ok = true) : (terminate decor s len).1.ok = true := by
  have e1 : size_to_int LOG_BUFFER_MAX_SIZE = 1024 := by decide
  have e3 : size_sub LOG_BUFFER_MAX_SIZE 1 = 1023 := by decide
  have e4 : size_sub LOG_BUFFER_MAX_SIZE 2 = 1022 := by decide
  have e5 : size_sub LOG_BUFFER_MAX_SIZE 3 = 1021 := by decide
  unfold terminate
  simp only [e1, e3, e4, e5]
  split
  · rename_i hc
    obtain ⟨L, rfl⟩ := Int.eq_ofNat_of_zero_le (show 0 ≤ len by omega)
    have e : (L : Int) + 1 = ((L + 1 : Nat) : Int) := by omega
    have e' : ((L + 1 : Nat) : Int) + 1 = ((L + 1 + 1 : Nat) : Int) := by omega
    cases has decor LOG_HAS_CR <;> cases has decor LOG_HAS_NEWLINE
    · simp only [Bool.false_eq_true, if_false]
      exact poke_ok_nat _ _ _ (by omega) hok
    · simp only [Bool.false_eq_true, if_false, if_true, e]
      exact poke_ok_nat _ _ _ (by rw [poke_length]; omega) (poke_ok_nat _ _ _ (by omega) hok)
    · simp only [Bool.false_eq_true, if_false, if_true, e]
      exact poke_ok_nat _ _ _ (by rw [poke_length]; omega) (poke_ok_nat _ _ _ (by omega) hok)
    · simp only [if_true, e, e']
      exact poke_ok_nat _ _ _ (by simp only [poke_length]; omega)
        (poke_ok_nat _ _ _ (by rw [poke_length]; omega) (poke_ok_nat _ _ _ (by omega) hok))
  · cases has decor LOG_HAS_CR <;> cases has decor LOG_HAS_NEWLINE
    · simp only [Bool.false_eq_true, if_false]
      exact poke_ok_nat _ _ _ (by omega) hok
    · simp only [Bool.false_eq_true, if_false, if_true]
      exact poke_ok_nat _ _ _ (by rw [poke_length]; omega) (poke_ok_nat _ _ _ (by omega) hok)
    · simp only [Bool.false_eq_true, if_false, if_true]
      exact poke_ok_nat _ _ _ (by rw [poke_length]; omega) (poke_ok_nat _ _ _ (by omega) hok)
    · simp only [if_true]
      exact poke_ok_nat _ _ _ (by simp only [poke_length]; omega)
        (poke_ok_nat _ _ _ (by rw [poke_length]; omega) (poke_ok_nat _ _ _ (by omega) hok))

/-- No access of lines 305-334 leaves the array. -/
theorem finish_ok (decor : Nat) (level : Int) (msg : Expansion) (s : LogBuf)
    (hs : s.data.length = 1024) (hp : s.pre ≤ 1023) (hok : s.ok = true) :
    (finish decor level msg s).2.1.ok = true := by
  unfold finish
  simp only [expand_eq level msg s hp]
  apply terminate_ok
  · simp [LogBuf.store, write_at_length, hs, expand_base_length]
  · simp [LogBuf.store, hok, hs, expand_base_pre, expand_base_length,
      expand_base_ok msg s hs hp]
    omega

theorem logger_log_skip (cfg : Config) (env : Env) (sender : List Nat) (level : Int)
    (msg : Expansion) (h : level > cfg.log_max_level) :
    logger_log cfg env sender level msg = { clock_reads := 0, calls := [], ok := true } := by
  unfold logger_log
  rw [if_pos h]

theorem logger_log_pass (cfg : Config) (env : Env) (sender : List Nat) (level : Int)
    (msg : Expansion) (h : level ≤ cfg.log_max_level) :
    logger_log cfg env sender level msg
      = dispatch cfg.log_writer_fun
          (finish cfg.log_decor level msg (prefix_state cfg env sender level)) := by
  unfold logger_log
  rw [if_neg (by omega)]

theorem logger_print_eq (cfg : Config) (env : Env) (tag : List Nat) (level : Int)
    (msg : Expansion) :
    logger_print cfg env tag level msg = logger_log cfg env tag level msg := by
  unfold logger_print logger_get_level
  split
  · rfl
  · rw [logger_log_skip]
    omega

theorem logger_log_ok (cfg : Config) (env : Env) (sender : List Nat) (level : Int)
    (msg : Expansion) (h : in_bounds cfg.log_decor env.pid env.tid level) :
    (logger_log cfg env sender level msg).ok = true := by
  unfold logger_log
  split
  · rfl
  · have h1 := finish_ok cfg.log_decor level msg (prefix_state cfg env sender level)
      (prefix_state_length cfg env sender level)
      (by have := prefix_state_pre_le cfg env sender level; omega)
      (prefix_state_ok cfg env sender level h)
    unfold dispatch
    split <;> exact h1

theorem dispatch_some (f : Nat) (r : Int × LogBuf × Int) :
    (dispatch (some f) r).calls = [{ func := f, level := r.1, data := r.2.1.data, len := r.2.2 }] :=
  rfl

theorem dispatch_none (r : Int × LogBuf × Int) : (dispatch none r).calls = [] := rfl

theorem dispatch_clock (w : Option Nat) (r : Int × LogBuf × Int) :
    (dispatch w r).clock_reads = 1 := by
  cases w <;> rfl

theorem logger_log_calls (cfg : Config) (env : Env) (sender : List Nat) (level : Int)
    (msg : Expansion) (f : Nat) (hl : level ≤ cfg.log_max_level)
    (hf : cfg.log_writer_fun = some f) :
    (logger_log cfg env sender level msg).calls
      = [{ func := f,
           level := (finish cfg.log_decor level msg (prefix_state cfg env sender level)).1,
           data := (finish cfg.log_decor level msg (prefix_state cfg env sender level)).2.1.data,
           len := (finish cfg.log_decor level msg (prefix_state cfg env sender level)).2.2 }] := by
  rw [logger_log_pass cfg env sender level msg hl, hf, dispatch_some]

/-- The line of a text that fits, as `logger_log` dispatches it. -/
theorem logger_log_fit (cfg : Config) (env : Env) (sender : List Nat) (level : Int)
    (msg : Expansion) (f : Nat) (hl : level ≤ cfg.log_max_level)
    (hf : cfg.log_writer_fun = some f) (hb : (expansion level msg).2 ≠ [])
    (hfit : (prefix_state cfg env sender level).pre + (expansion level msg).2.length ≤ 1021) :
    (logger_log cfg env sender level msg).calls.map
        (SinkCall.view ((prefix_state cfg env sender level).pre
          + (expansion level msg).2.length + (terminators cfg.log_decor).length))
      = [(f, (expansion level msg).1,
          (((prefix_state cfg env sender level).pre + (expansion level msg).2.length
            + (terminators cfg.log_decor).length : Nat) : Int),
          (prefix_state cfg env sender level).text ++ (expansion level msg).2
            ++ terminators cfg.log_decor,
          0)] := by
  have h := finish_fit cfg.log_decor level msg (prefix_state cfg env sender level)
    (prefix_state_length cfg env sender level) hb hfit
  rw [logger_log_calls cfg env sender level msg f hl hf]
  simp only [List.map_cons, List.map_nil, SinkCall.view]
  rw [h.1, h.2.1, h.2.2.1, h.2.2.2.1]

theorem terminators_length (decor : Nat) :
    (terminators decor).length
      = (if has decor LOG_HAS_CR then 1 else 0) + (if has decor LOG_HAS_NEWLINE then 1 else 0) := by
  unfold terminators
  split <;> split <;> rfl

/-- C1: for every decoration mask, decoded time, pid, tid, level in 0..5 and
sender, the prefix that `logger_log` builds is the concatenation, in this order,
of the decimal year, the date `MM-DD`, the time `HH:MM:SS.mmm`, the two 6-wide
ids, the one-letter level label and the sender cut to 25 bytes with its `:`,
each present iff its flag is set and each after its separator when something
precedes (`prefix_text`). -/
theorem C1_prefix_layout (cfg : Config) (env : Env) (sender : List Nat) (level : Int)
    (h0 : 0 ≤ level) (h5 : level ≤ 5) :
    (prefix_state cfg env sender level).text
      = prefix_text cfg.log_decor env.ptime env.pid env.tid (level_label level) sender := by
  rw [prefix_state_text, label_byte_eq env.stray level ⟨h0, by omega⟩]

/-- C1 at level 3 with the initial configuration and the sender "NET". -/
theorem C1_prefix_layout_witness :
    (0 : Int) ≤ 3 ∧ (3 : Int) ≤ 5 ∧
    (prefix_state Config.initial scenario_env (bytes "NET") 3).text
      = prefix_text Config.initial.log_decor scenario_env.ptime scenario_env.pid
          scenario_env.tid (level_label 3) (bytes "NET") :=
  ⟨by decide, by decide, C1_prefix_layout _ _ _ _ (by decide) (by decide)⟩

/-- C2: for every non-empty expanded message `m` with prefix length plus `|m|`
at most 1021, the line handed to the sink is the prefix, then `m`, then `\r` if
`LOG_HAS_CR`, then `\n` if `LOG_HAS_NEWLINE`, then a NUL, and the length handed
over is the prefix length plus `|m|` plus the number of terminators. -/
theorem C2_line_layout (cfg : Config) (env : Env) (sender : List Nat) (level : Int)
    (m : List Nat) (f : Nat) (hl : level ≤ cfg.log_max_level)
    (hf : cfg.log_writer_fun = some f) (hm : m ≠ [])
    (hfit : (prefix_state cfg env sender level).text.length + m.length ≤ 1021) :
    (logger_log cfg env sender level (.text m)).calls.map
        (SinkCall.view ((prefix_state cfg env sender level).text.length + m.length
          + ((if has cfg.log_decor LOG_HAS_CR then 1 else 0)
            + (if has cfg.log_decor LOG_HAS_NEWLINE then 1 else 0))))
      = [(f, level,
          (((prefix_state cfg env sender level).text.length + m.length
            + ((if has cfg.log_decor LOG_HAS_CR then 1 else 0)
              + (if has cfg.log_decor LOG_HAS_NEWLINE then 1 else 0)) : Nat) : Int),
          (prefix_state cfg env sender level).text ++ m
            ++ (if has cfg.log_decor LOG_HAS_CR then [13] else [])
            ++ (if has cfg.log_decor LOG_HAS_NEWLINE then [10] else []),
          0)] := by
  have hpre : (prefix_state cfg env sender level).text.length
      = (prefix_state cfg env sender level).pre := by
    rw [prefix_state_text, prefix_state_pre]
  rw [hpre] at hfit ⊢
  have h := logger_log_fit cfg env sender level (.text m) f hl hf hm hfit
  simp only [expansion, terminators_length] at h
  rw [h]
  simp [terminators]

/-- C2 in the end-to-end scenario. -/
theorem C2_line_layout_witness :
    (3 : Int) ≤ scenario_cfg.log_max_level ∧
    scenario_cfg.log_writer_fun = some logger_write ∧
    bytes "conn 7 ok" ≠ [] ∧
    (prefix_state scenario_cfg scenario_env (bytes "NET") 3).text.length
      + (bytes "conn 7 ok").length ≤ 1021 ∧
    (logger_log scenario_cfg scenario_env (bytes "NET") 3 (.text (bytes "conn 7 ok"))).calls.map
        (SinkCall.view ((prefix_state scenario_cfg scenario_env (bytes "NET") 3).text.length
          + (bytes "conn 7 ok").length
          + ((if has scenario_cfg.log_decor LOG_HAS_CR then 1 else 0)
            + (if has scenario_cfg.log_decor LOG_HAS_NEWLINE then 1 else 0))))
      = [(logger_write, 3,
          (((prefix_state scenario_cfg scenario_env (bytes "NET") 3).text.length
            + (bytes "conn 7 ok").length
            + ((if has scenario_cfg.log_decor LOG_HAS_CR then 1 else 0)
              + (if has scenario_cfg.log_decor LOG_HAS_NEWLINE then 1 else 0)) : Nat) : Int),
          (prefix_state scenario_cfg scenario_env (bytes "NET") 3).text ++ bytes "conn 7 ok"
            ++ (if has scenario_cfg.log_decor LOG_HAS_CR then [13] else [])
            ++ (if has scenario_cfg.log_decor LOG_HAS_NEWLINE then [10] else []),
          0)] :=
  have hfit : (prefix_state scenario_cfg scenario_env (bytes "NET") 3).text.length
      + (bytes "conn 7 ok").length ≤ 1021 := by
    have h := prefix_state_pre_le scenario_cfg scenario_env (bytes "NET") 3
    have e : (bytes "conn 7 ok").length = 9 := by decide
    rw [prefix_state_text, ← prefix_state_pre, e]
    omega
  ⟨by decide, rfl, by decide, hfit,
    C2_line_layout _ _ _ _ _ _ (by decide) rfl (by decide) hfit⟩

theorem putc_flagged (s : LogBuf) (c : Nat) (h : s.ok = false) : (s.putc c).ok = false := by
  simp [LogBuf.putc, h]

theorem store_flagged (s : LogBuf) (bs : List Nat) (h : s.ok = false) :
    (s.store bs).ok = false := by
  simp [LogBuf.store, h]

theorem sep_flagged (s : LogBuf) (c : Nat) (h : s.ok = false) : (s.sep c).ok = false := by
  unfold LogBuf.sep
  split
  · exact putc_flagged s c h
  · exact h

theorem copy_str_flagged (bs : List Nat) : ∀ (s : LogBuf), s.ok = false →
    (copy_str bs s).ok = false := by
  induction bs with
  | nil => intro s h; exact h
  | cons c cs ih => intro s h; exact ih _ (putc_flagged s c h)

theorem copy_n_flagged (n : Nat) : ∀ (mem : List Nat) (s : LogBuf), s.ok = false →
    (copy_n n mem s).ok = false := by
  induction n with
  | zero => intro mem s h; exact h
  | succ n ih => intro mem s h; exact ih _ _ (putc_flagged s _ h)

theorem put_sender_flagged (decor : Nat) (sender : List Nat) (s : LogBuf) (h : s.ok = false) :
    (put_sender decor sender s).ok = false := by
  unfold put_sender
  split
  · simp only []
    apply putc_flagged
    split
    · exact copy_str_flagged _ _ (sep_flagged s 32 h)
    · exact copy_n_flagged _ _ _ (sep_flagged s 32 h)
  · exact h

theorem poke_flagged (s : LogBuf) (i : Int) (c : Nat) (h : s.ok = false) :
    (poke s i c).ok = false := by
  simp [poke, h]

theorem vsnprintf_flagged (s : LogBuf) (n : Nat) (out : Expansion) (h : s.ok = false) :
    (vsnprintf s n out).1.ok = false := by
  unfold vsnprintf
  cases out with
  | failed left => exact store_flagged s _ h
  | text m =>
    simp only []
    split
    · exact h
    · exact store_flagged s _ h

theorem expand_flagged (level : Int) (msg : Expansion) (s : LogBuf) (h : s.ok = false) :
    (expand level msg s).2.1.ok = false := by
  unfold expand
  simp only []
  split
  · exact vsnprintf_flagged _ _ _ (vsnprintf_flagged _ _ _ h)
  · exact vsnprintf_flagged _ _ _ h

theorem terminate_flagged (decor : Nat) (s : LogBuf) (len : Int) (h : s.ok = false) :
    (terminate decor s len).1.ok = false := by
  unfold terminate
  split
  · simp only []
    apply poke_flagged
    split
    · simp only []
      apply poke_flagged
      split
      · exact poke_flagged _ _ _ h
      · exact h
    · split
      · exact poke_flagged _ _ _ h
      · exact h
  · simp only []
    apply poke_flagged
    split
    · apply poke_flagged
      split
      · exact poke_flagged _ _ _ h
      · exact h
    · split
      · exact poke_flagged _ _ _ h
      · exact h

theorem finish_flagged (decor : Nat) (level : Int) (msg : Expansion) (s : LogBuf)
    (h : s.ok = false) : (finish decor level msg s).2.1.ok = false := by
  unfold finish
  exact terminate_flagged _ _ _ (expand_flagged level msg s h)

theorem put_level_text_flagged (decor : Nat) (stray : Int → List Nat) (level : Int)
    (s : LogBuf) (hd : has decor LOG_HAS_LEVEL_TEXT = true) (hl : ¬ (0 ≤ level ∧ level < 6)) :
    (put_level_text decor stray level s).ok = false := by
  unfold put_level_text
  rw [if_pos hd]
  simp only [if_neg hl]
  rfl

/-- A level outside the table under `LOG_HAS_LEVEL_TEXT`: the run reads
`ltexts[level]` out of range. -/
theorem logger_log_flagged (cfg : Config) (env : Env) (sender : List Nat) (level : Int)
    (msg : Expansion) (hl : level ≤ cfg.log_max_level)
    (hd : has cfg.log_decor LOG_HAS_LEVEL_TEXT = true) (hout : ¬ (0 ≤ level ∧ level < 6)) :
    (logger_log cfg env sender level msg).ok = false := by
  rw [logger_log_pass cfg env sender level msg hl]
  have h1 : (prefix_state cfg env sender level).ok = false := by
    unfold prefix_state assemble
    exact put_sender_flagged _ _ _ (put_level_text_flagged _ _ _ _ hd hout)
  have h2 := finish_flagged cfg.log_decor level msg _ h1
  unfold dispatch
  split <;> exact h2

/-- A level outside the label table under `LOG_HAS_LEVEL_TEXT`: the run has left
its arrays when the prefix is built, before the message is expanded. -/
theorem prefix_state_flagged (cfg : Config) (env : Env) (sender : List Nat) (level : Int)
    (hd : has cfg.log_decor LOG_HAS_LEVEL_TEXT = true) (hout : ¬ (0 ≤ level ∧ level < 6)) :
    (prefix_state cfg env sender level).ok = false := by
  unfold prefix_state assemble
  exact put_sender_flagged _ _ _ (put_level_text_flagged _ _ _ _ hd hout)

/-- For every input accepted by the level guard whose run stays inside its
arrays (any decoration mask, time, sender, message, expansion success or
failure; ids that fit `threadid` and a level of the label table wherever these
are rendered): one line is handed to the sink, its length `L` satisfies
`0 < L <= 1023`, the byte of the line buffer at index `L` is NUL, and no access
has left an array. -/
theorem terminated_within_capacity (cfg : Config) (env : Env) (sender : List Nat)
    (level : Int) (msg : Expansion) (f : Nat) (hl : level ≤ cfg.log_max_level)
    (hf : cfg.log_writer_fun = some f) (hb : in_bounds cfg.log_decor env.pid env.tid level) :
    (∃ c : SinkCall, (logger_log cfg env sender level msg).calls = [c] ∧
      0 < c.len ∧ c.len ≤ 1023 ∧ c.data.length = LOG_BUFFER_MAX_SIZE ∧
      c.data.getD c.len.toNat 0 = 0) ∧
    (logger_log cfg env sender level msg).ok = true := by
  have hlen := finish_length cfg.log_decor level msg (prefix_state cfg env sender level)
  rw [prefix_state_length] at hlen
  have h := terminate_terminated cfg.log_decor
    (expand level msg (prefix_state cfg env sender level)).2.1
    (((prefix_state cfg env sender level).pre : Int)
      + clip ((prefix_state cfg env sender level).pre : Int)
          (expand level msg (prefix_state cfg env sender level)).2.2)
    (by rw [expand_length, prefix_state_length])
  exact ⟨⟨_, logger_log_calls cfg env sender level msg f hl hf, h.1, h.2.1, hlen, h.2.2⟩,
    logger_log_ok cfg env sender level msg hb⟩

/-- C3 at a failing input: with the scenario configuration the level -1 is
accepted by the guard, and the prefix block of `LOG_HAS_LEVEL_TEXT` reads
`ltexts[-1]`, outside the label table, before the message is expanded, the
terminators are stored and the sink is called: whatever the outcome of the
expansion, the run has left its arrays. -/
theorem C3_out_of_table_level :
    (-1 : Int) ≤ scenario_cfg.log_max_level ∧
    scenario_cfg.log_writer_fun = some logger_write ∧
    has scenario_cfg.log_decor LOG_HAS_LEVEL_TEXT = true ∧
    (prefix_state scenario_cfg scenario_env (bytes "NET") (-1)).ok = false ∧
    ∀ msg : Expansion,
      (logger_log scenario_cfg scenario_env (bytes "NET") (-1) msg).ok = false :=
  ⟨by decide, rfl, by decide,
    prefix_state_flagged _ _ _ _ (by decide) (by decide),
    fun msg => logger_log_flagged _ _ _ _ msg (by decide) (by decide) (by decide)⟩

/-- For every level that passes the level guard with a run that stays inside
its arrays, and every decoration mask: when the expansion of the message fails
(whatever the failed call left in the buffer) the dispatched line is the
prefix, the 29 bytes of the literal `<logging error: msg too long>`, the
terminators and a NUL, the level handed to the sink is 1, and no access has
left an array. -/
theorem expansion_failure_line (cfg : Config) (env : Env) (sender : List Nat) (level : Int)
    (left : List Nat) (f : Nat) (hl : level ≤ cfg.log_max_level) (hf : cfg.log_writer_fun = some f)
    (hb : in_bounds cfg.log_decor env.pid env.tid level) :
    (logger_log cfg env sender level (.failed left)).calls.map
        (SinkCall.view ((prefix_state cfg env sender level).text.length + 29
          + (terminators cfg.log_decor).length))
      = [(f, 1,
          (((prefix_state cfg env sender level).text.length + 29
            + (terminators cfg.log_decor).length : Nat) : Int),
          (prefix_state cfg env sender level).text ++ bytes "<logging error: msg too long>"
            ++ terminators cfg.log_decor,
          0)] ∧
    (logger_log cfg env sender level (.failed left)).ok = true := by
  refine ⟨?_, logger_log_ok cfg env sender level _ hb⟩
  have hpre : (prefix_state cfg env sender level).text.length
      = (prefix_state cfg env sender level).pre := by
    rw [prefix_state_text, prefix_state_pre]
  have hle := prefix_state_pre_le cfg env sender level
  have e : (expansion level (.failed left)).2 = error_text := rfl
  have h := logger_log_fit cfg env sender level (.failed left) f hl hf
    (by rw [e]; decide) (by rw [e, error_text_length]; omega)
  rw [e, error_text_length] at h
  rw [hpre, h]
  rfl

/-- C4 at a failing input: with the default configuration the level -1 passes
the guard, and after `logger_set_level(6)` so does the level 6; with
`LOG_HAS_LEVEL_TEXT` the prefix block reads `ltexts[level]` outside the label
table before line 308 expands the message, so when the expansion then fails the
run has already left its arrays, whatever the failed call leaves in the
buffer. -/
theorem C4_failure_after_out_of_range :
    (-1 : Int) ≤ Config.initial.log_max_level ∧
    (6 : Int) ≤ (logger_set_level Config.initial 6).log_max_level ∧
    has Config.initial.log_decor LOG_HAS_LEVEL_TEXT = true ∧
    (prefix_state Config.initial scenario_env (bytes "NET") (-1)).ok = false ∧
    (prefix_state (logger_set_level Config.initial 6) scenario_env (bytes "NET") 6).ok = false ∧
    ∀ left : List Nat,
      (logger_log Config.initial scenario_env (bytes "NET") (-1) (.failed left)).ok = false ∧
      (logger_log (logger_set_level Config.initial 6) scenario_env (bytes "NET") 6
        (.failed left)).ok = false :=
  ⟨by decide, by decide, by decide,
    prefix_state_flagged _ _ _ _ (by decide) (by decide),
    prefix_state_flagged _ _ _ _ (by decide) (by decide),
    fun left =>
      ⟨logger_log_flagged _ _ _ _ (.failed left) (by decide) (by decide) (by decide),
        logger_log_flagged _ _ _ _ (.failed left) (by decide) (by decide) (by decide)⟩⟩

/-- For every level `L`, maximum level `M` and sink setting, `logger_log` and
`logger_print` make no sink call and no clock read when `L > M`; and when the
run stays inside its arrays (ids that fit `threadid` and a level of the label
table wherever these are rendered) they call the configured sink exactly once
when `L <= M` and a sink is set, and with a null sink they complete (one clock
read) without any call. -/
theorem guard_and_dispatch (cfg : Config) (env : Env) (sender : List Nat) (level : Int)
    (msg : Expansion) :
    (level > cfg.log_max_level →
      logger_log cfg env sender level msg = { clock_reads := 0, calls := [], ok := true } ∧
      logger_print cfg env sender level msg = { clock_reads := 0, calls := [], ok := true }) ∧
    (in_bounds cfg.log_decor env.pid env.tid level →
      (level ≤ cfg.log_max_level → ∀ f : Nat, cfg.log_writer_fun = some f →
        (logger_log cfg env sender level msg).calls.map SinkCall.func = [f] ∧
        (logger_print cfg env sender level msg).calls.map SinkCall.func = [f] ∧
        (logger_log cfg env sender level msg).clock_reads = 1) ∧
      (cfg.log_writer_fun = none →
        (logger_log cfg env sender level msg).calls = [] ∧
        (logger_print cfg env sender level msg).calls = [] ∧
        (level ≤ cfg.log_max_level → (logger_log cfg env sender level msg).clock_reads = 1)) ∧
      (logger_log cfg env sender level msg).ok = true ∧
      (logger_print cfg env sender level msg).ok = true) := by
  refine ⟨?_, fun hb => ⟨?_, ?_, logger_log_ok cfg env sender level msg hb, ?_⟩⟩
  · intro h
    rw [logger_print_eq]
    exact ⟨logger_log_skip cfg env sender level msg h, logger_log_skip cfg env sender level msg h⟩
  · intro h f hf
    rw [logger_print_eq, logger_log_calls cfg env sender level msg f h hf,
      logger_log_pass cfg env sender level msg h, dispatch_clock]
    exact ⟨rfl, rfl, rfl⟩
  · intro hn
    rw [logger_print_eq]
    refine ⟨?_, ?_, ?_⟩
    · unfold logger_log
      split
      · rfl
      · rw [hn, dispatch_none]
    · unfold logger_log
      split
      · rfl
      · rw [hn, dispatch_none]
    · intro h
      rw [logger_log_pass cfg env sender level msg h, dispatch_clock]
  · rw [logger_print_eq]
    exact logger_log_ok cfg env sender level msg hb

/-- C5 at a failing input: with the default configuration the level -1 is not
above the maximum 5, so `logger_print` passes the guard, and the prefix block
of `LOG_HAS_LEVEL_TEXT` reads `ltexts[-1]`, outside the label table, before
line 336 tests the sink: the run has left its arrays before the sink is
called, and with a null sink before the call is skipped. -/
theorem C5_out_of_range_before_dispatch :
    ¬ ((-1 : Int) > Config.initial.log_max_level) ∧
    Config.initial.log_writer_fun = some logger_write ∧
    (logger_set_log_func Config.initial none).log_writer_fun = none ∧
    (logger_print Config.initial scenario_env (bytes "NET") (-1) (.text (bytes "x"))).ok = false ∧
    (logger_log Config.initial scenario_env (bytes "NET") (-1) (.text (bytes "x"))).ok = false ∧
    (logger_print (logger_set_log_func Config.initial none) scenario_env (bytes "NET") (-1)
      (.text (bytes "x"))).ok = false := by
  refine ⟨by decide, rfl, rfl, ?_, ?_, ?_⟩
  · rw [logger_print_eq]
    exact logger_log_flagged _ _ _ _ _ (by decide) (by decide) (by decide)
  · exact logger_log_flagged _ _ _ _ _ (by decide) (by decide) (by decide)
  · rw [logger_print_eq]
    exact logger_log_flagged _ _ _ _ _ (by decide) (by decide) (by decide)

theorem take_set_le (l : List Nat) (k m a : Nat) (h : k ≤ m) :
    (l.set m a).take k = l.take k := by
  rw [List.set_take]
  exact List.set_eq_of_length_le (by simp; omega)

theorem getD_set_ne (l : List Nat) (i j a : Nat) (h : i ≠ j) :
    (l.set i a).getD j 0 = l.getD j 0 := by
  simp [List.getElem?_set_ne h]

theorem getD_set_eq (l : List Nat) (i a : Nat) (h : i < l.length) :
    (l.set i a).getD i 0 = a := by
  simp [h]

/-- The branch of lines 325-334: the length is 1023, `\r` goes to offset 1021,
`\n` to offset 1022 and the NUL to offset 1023; nothing else changes. -/
theorem terminate_full (decor : Nat) (s : LogBuf) (len : Int) (hs : s.data.length = 1024)
    (h : ¬ (len > 0 ∧ len < 1022)) :
    (terminate decor s len).2 = 1023 ∧
    (∀ k, k ≤ 1021 → (terminate decor s len).1.data.take k = s.data.take k) ∧
    (terminate decor s len).1.data.getD 1021 0
      = (if has decor LOG_HAS_CR then 13 else s.data.getD 1021 0) ∧
    (terminate decor s len).1.data.getD 1022 0
      = (if has decor LOG_HAS_NEWLINE then 10 else s.data.getD 1022 0) ∧
    (terminate decor s len).1.data.getD 1023 0 = 0 := by
  have e1 : size_to_int LOG_BUFFER_MAX_SIZE = 1024 := by decide
  have e2 : size_to_int 1023 = 1023 := by decide
  have e3 : size_sub LOG_BUFFER_MAX_SIZE 1 = 1023 := by decide
  have e4 : size_sub LOG_BUFFER_MAX_SIZE 2 = 1022 := by decide
  have e5 : size_sub LOG_BUFFER_MAX_SIZE 3 = 1021 := by decide
  have hc : ¬ (len > 0 ∧ len < 1024 - 2) := by omega
  unfold terminate
  simp only [e1, e3, e4, e5, e2, if_neg hc, poke, Int.toNat_ofNat]
  cases has decor LOG_HAS_CR <;> cases has decor LOG_HAS_NEWLINE
  all_goals simp only [Bool.false_eq_true, if_false, if_true]
  all_goals refine ⟨trivial, fun k hk => ?_, ?_, ?_, ?_⟩
  all_goals first
    | (simp only [take_set_le _ _ _ _ (show k ≤ 1023 by omega),
        take_set_le _ _ _ _ (show k ≤ 1022 by omega), take_set_le _ _ _ _ hk])
    | simp [List.getElem?_set, hs]

theorem getD_of_take_lt (X A : List Nat) (n k : Nat) (h : X.take n = A) (hk : k < n) :
    X.getD k 0 = A.getD k 0 := by
  subst h
  simp [List.getElem?_take, hk]

/-- An empty text, or one that reaches offset 1022: lines 305-334 take the
branch of lines 325-334 on the buffer holding the (possibly cut) text and its
NUL. -/
theorem finish_full (decor : Nat) (level : Int) (msg : Expansion) (s : LogBuf)
    (hs : s.data.length = 1024) (hp : s.pre ≤ 1021)
    (hfull : (expansion level msg).2 = [] ∨ 1022 ≤ s.pre + (expansion level msg).2.length) :
    (finish decor level msg s).1 = (expansion level msg).1 ∧
    (finish decor level msg s).2.2 = 1023 ∧
    (∀ k, k ≤ 1021 → (finish decor level msg s).2.1.data.take k
      = (write_at (expand_base msg s).data s.pre ((expansion level msg).2.take (1023 - s.pre) ++ [0])).take k) ∧
    (finish decor level msg s).2.1.data.getD 1021 0
      = (if has decor LOG_HAS_CR then 13 else
          (write_at (expand_base msg s).data s.pre ((expansion level msg).2.take (1023 - s.pre) ++ [0])).getD 1021 0) ∧
    (finish decor level msg s).2.1.data.getD 1022 0
      = (if has decor LOG_HAS_NEWLINE then 10 else
          (write_at (expand_base msg s).data s.pre ((expansion level msg).2.take (1023 - s.pre) ++ [0])).getD 1022 0) ∧
    (finish decor level msg s).2.1.data.getD 1023 0 = 0 := by
  generalize hbody : (expansion level msg).2 = body at *
  have hst : ((expand_base msg s).store (body.take (1023 - s.pre) ++ [0])).data.length = 1024 := by
    simp [LogBuf.store, write_at_length, hs, expand_base_length]
  have hc : ¬ (((s.pre : Int) + clip (s.pre : Int) (body.length : Int)) > 0 ∧
      ((s.pre : Int) + clip (s.pre : Int) (body.length : Int)) < 1022) := by
    rw [clip_eq s.pre _ (by omega)]
    rcases hfull with h | h
    · subst h
      simp
    · split <;> omega
  have ht := terminate_full decor ((expand_base msg s).store (body.take (1023 - s.pre) ++ [0])) _ hst hc
  unfold finish
  simp only [expand_eq level msg s (by omega), hbody]
  have hd : ((expand_base msg s).store (body.take (1023 - s.pre) ++ [0])).data
      = write_at (expand_base msg s).data s.pre (body.take (1023 - s.pre) ++ [0]) := by
    simp [LogBuf.store, expand_base_pre]
  rw [hd] at ht
  exact ⟨trivial, ht.1, ht.2.1, ht.2.2.1, ht.2.2.2.1, ht.2.2.2.2⟩

/-- The line of a message too long for the remaining space, as `logger_log`
dispatches it: length 1023, the first 1023 bytes of prefix and message except
that offset 1021 holds `\r` under `LOG_HAS_CR` and offset 1022 holds `\n` under
`LOG_HAS_NEWLINE`, and a NUL at offset 1023. -/
theorem logger_log_overflow (cfg : Config) (env : Env) (sender : List Nat) (level : Int)
    (m : List Nat) (f : Nat) (hl : level ≤ cfg.log_max_level)
    (hf : cfg.log_writer_fun = some f)
    (hlong : 1024 ≤ (prefix_state cfg env sender level).pre + m.length) :
    ∃ c : SinkCall, (logger_log cfg env sender level (.text m)).calls = [c] ∧
      c.func = f ∧ c.level = level ∧ c.len = 1023 ∧
      c.data.take 1021 = ((prefix_state cfg env sender level).text ++ m).take 1021 ∧
      c.data.getD 1021 0 = (if has cfg.log_decor LOG_HAS_CR then 13
        else ((prefix_state cfg env sender level).text ++ m).getD 1021 0) ∧
      c.data.getD 1022 0 = (if has cfg.log_decor LOG_HAS_NEWLINE then 10
        else ((prefix_state cfg env sender level).text ++ m).getD 1022 0) ∧
      c.data.getD 1023 0 = 0 := by
  have hle := prefix_state_pre_le cfg env sender level
  have hs := prefix_state_length cfg env sender level
  have h := finish_full cfg.log_decor level (.text m) (prefix_state cfg env sender level) hs
    (by omega) (Or.inr (by simp only [expansion]; omega))
  simp only [expansion, expand_base] at h
  set S := prefix_state cfg env sender level with hS
  have hD := write_at_take (m.take (1023 - S.pre) ++ [0]) S.data S.pre (1023 - S.pre)
    (by simp; omega) (by omega)
  have e1 : S.pre + (1023 - S.pre) = 1023 := by omega
  have e2 : (m.take (1023 - S.pre) ++ [0]).take (1023 - S.pre) = m.take (1023 - S.pre) := by
    rw [List.take_append_of_le_length (by simp; omega), List.take_take]
    simp
  have e3 : S.data.take S.pre ++ m.take (1023 - S.pre) = (S.text ++ m).take 1023 := by
    have hl : S.text.length = S.pre := by simp [LogBuf.text, hs]; omega
    rw [List.take_append_eq_append_take, hl, List.take_of_length_le (l := S.text) (by omega)]
    rfl
  rw [e1, e2, e3] at hD
  refine ⟨_, logger_log_calls cfg env sender level (.text m) f hl hf, rfl, h.1, h.2.1, ?_, ?_, ?_,
    h.2.2.2.2.2⟩
  · simp only []
    rw [h.2.2.1 1021 (by omega)]
    have : (1021 : Nat) = min 1021 1023 := by omega
    rw [this, ← List.take_take, hD, List.take_take]
  · simp only []
    rw [h.2.2.2.1, getD_of_take_lt _ _ 1023 1021 hD (by omega)]
    simp [List.getElem?_take]
  · simp only []
    rw [h.2.2.2.2.1, getD_of_take_lt _ _ 1023 1022 hD (by omega)]
    simp [List.getElem?_take]

/-- The line of an empty message, as `logger_log` dispatches it: length 1023,
although the prefix is followed by a NUL at once. -/
theorem logger_log_empty (cfg : Config) (env : Env) (sender : List Nat) (level : Int)
    (f : Nat) (hl : level ≤ cfg.log_max_level) (hf : cfg.log_writer_fun = some f) :
    ∃ data : List Nat,
      (logger_log cfg env sender level (.text [])).calls
        = [{ func := f, level := level, data := data, len := 1023 }] ∧
      data.take ((prefix_state cfg env sender level).pre + 1)
        = (prefix_state cfg env sender level).text ++ [0] := by
  have hle := prefix_state_pre_le cfg env sender level
  have hs := prefix_state_length cfg env sender level
  have hx : (expansion level (.text [])).2 = [] := rfl
  have hb : expand_base (.text []) (prefix_state cfg env sender level)
      = prefix_state cfg env sender level := rfl
  have h := finish_full cfg.log_decor level (.text []) (prefix_state cfg env sender level) hs
    (by omega) (Or.inl hx)
  rw [hx, hb] at h
  have hD := write_at_take [0] (prefix_state cfg env sender level).data
    (prefix_state cfg env sender level).pre 1 (by simp) (by omega)
  have h3 := h.2.2.1 ((prefix_state cfg env sender level).pre + 1) (by omega)
  rw [show List.take (1023 - (prefix_state cfg env sender level).pre) ([] : List Nat) = [] by simp,
    List.nil_append, hD] at h3
  refine ⟨_, ?_, h3⟩
  rw [logger_log_calls cfg env sender level (.text []) f hl hf, h.1, h.2.1]
  rfl

theorem scenario_env_ptime : scenario_env.ptime = scenario_time := by decide

theorem scenario_prefix_text (pid tid : Int) :
    prefix_text scenario_cfg.log_decor scenario_time pid tid (level_label 3) (bytes "NET")
      = bytes "07:05:09.123 I NET:" := by
  have h1 : has scenario_cfg.log_decor LOG_HAS_YEAR = false := by decide
  have h2 : has scenario_cfg.log_decor LOG_HAS_DAY = false := by decide
  have h3 : has scenario_cfg.log_decor LOG_HAS_TIME = true := by decide
  have h4 : has scenario_cfg.log_decor LOG_HAS_THREAD_ID = false := by decide
  have h5 : has scenario_cfg.log_decor LOG_HAS_LEVEL_TEXT = true := by decide
  have h6 : has scenario_cfg.log_decor LOG_HAS_SENDER = true := by decide
  simp [prefix_text, year_text, day_text, time_text, thread_text, label_text, sender_text,
    h1, h2, h3, h4, h5, h6, sep_if, scenario_time, to_ulong, decimal, lpad, level_label, bytes]

theorem cr_only_prefix_text (t : detail_time_str) (pid tid : Int) (lab sender : List Nat) :
    prefix_text cr_only_cfg.log_decor t pid tid lab sender = [] := by
  have h1 : has cr_only_cfg.log_decor LOG_HAS_YEAR = false := by decide
  have h2 : has cr_only_cfg.log_decor LOG_HAS_DAY = false := by decide
  have h3 : has cr_only_cfg.log_decor LOG_HAS_TIME = false := by decide
  have h4 : has cr_only_cfg.log_decor LOG_HAS_THREAD_ID = false := by decide
  have h5 : has cr_only_cfg.log_decor LOG_HAS_LEVEL_TEXT = false := by decide
  have h6 : has cr_only_cfg.log_decor LOG_HAS_SENDER = false := by decide
  simp [prefix_text, year_text, day_text, time_text, thread_text, label_text, sender_text,
    h1, h2, h3, h4, h5, h6]

theorem strlen_of_take (A : List Nat) : ∀ (X : List Nat), X.take (A.length + 1) = A ++ [0] →
    (∀ c ∈ A, c ≠ 0) → strlen X = A.length := by
  induction A with
  | nil =>
    intro X h _
    cases X with
    | nil => simp at h
    | cons x xs =>
      simp at h
      subst h
      simp [strlen]
  | cons a as ih =>
    intro X h hA
    cases X with
    | nil => simp at h
    | cons x xs =>
      simp only [List.length_cons, List.take_succ_cons, List.cons_append, List.cons.injEq] at h
      obtain ⟨rfl, h2⟩ := h
      have ha : x ≠ 0 := hA x (by simp)
      have := ih xs h2 (fun c hc => hA c (by simp [hc]))
      simp only [strlen] at this ⊢
      simpa [List.takeWhile_cons, ha] using this

theorem getD_replicate (n k a : Nat) (h : k < n) : (List.replicate n a).getD k 0 = a := by
  simp [List.getElem?_replicate, h]

/-- C6 at a failing input: with only `LOG_HAS_CR` set and a message of 1100
bytes `a`, the dispatched line has length 1023, its `\r` is at offset 1021 and
its last byte, at offset 1022, is the message byte `a`, not the terminator. -/
theorem C6_cr_only_overflow :
    (logger_log cr_only_cfg scenario_env (bytes "NET") 3 (.text (List.replicate 1100 97))).calls.map
        (fun c => (c.len, c.data.getD 1021 0, c.data.getD 1022 0, c.data.getD 1023 0))
      = [(1023, 13, 97, 0)] := by
  obtain ⟨c, hc, _, _, hlen, _, h21, h22, h23⟩ :=
    logger_log_overflow cr_only_cfg scenario_env (bytes "NET") 3 (List.replicate 1100 97)
      logger_write (by decide) rfl (by rw [List.length_replicate]; omega)
  have h1 : has cr_only_cfg.log_decor LOG_HAS_CR = true := by decide
  have h2 : has cr_only_cfg.log_decor LOG_HAS_NEWLINE = false := by decide
  rw [prefix_state_text, cr_only_prefix_text] at h22
  rw [h1] at h21
  rw [h2] at h22
  rw [hc]
  simp only [List.map_cons, List.map_nil, hlen, h21, h22, h23, List.nil_append,
    getD_replicate 1100 1022 97 (by omega)]
  rfl

/-- C7 at a failing input: in the end-to-end scenario with an empty message the
length handed to the sink is 1023, while the line holds 19 bytes before its
first NUL. -/
theorem C7_empty_message_length :
    (logger_log scenario_cfg scenario_env (bytes "NET") 3 (.text [])).calls.map
        (fun c => (c.len, strlen c.data))
      = [(1023, 19)] := by
  obtain ⟨data, hc, hd⟩ :=
    logger_log_empty scenario_cfg scenario_env (bytes "NET") 3 logger_write (by decide) rfl
  have ht : (prefix_state scenario_cfg scenario_env (bytes "NET") 3).text
      = bytes "07:05:09.123 I NET:" := by
    rw [prefix_state_text, label_byte_eq _ _ (by decide), scenario_env_ptime,
      scenario_prefix_text]
  have hp : (prefix_state scenario_cfg scenario_env (bytes "NET") 3).pre = 19 := by
    rw [prefix_state_pre, label_byte_eq _ _ (by decide), scenario_env_ptime,
      scenario_prefix_text]
    decide
  rw [ht, hp] at hd
  have hs := strlen_of_take (bytes "07:05:09.123 I NET:") data hd (by decide)
  rw [hc]
  simp only [List.map_cons, List.map_nil, hs]
  decide

/-- C8: in the end-to-end scenario (time, level text, sender and newline; clock
decoded to 2024-03-01 07:05:09.123; level 3; sender "NET"; message
"conn 7 ok"; maximum level 5) the sink receives the line
"07:05:09.123 I NET:conn 7 ok\n", NUL-terminated, and the level 3. -/
theorem C8_scenario_line (env : Env) (hclock : env.ptime = scenario_time) :
    (logger_log scenario_cfg env (bytes "NET") 3 (.text (bytes "conn 7 ok"))).calls.map
        (fun c => (c.func, c.level, c.data.take 29, c.data.getD 29 0))
      = [(logger_write, 3, bytes "07:05:09.123 I NET:conn 7 ok\n", 0)] := by
  have ht : (prefix_state scenario_cfg env (bytes "NET") 3).text
      = bytes "07:05:09.123 I NET:" := by
    rw [prefix_state_text, label_byte_eq _ _ (by decide), hclock, scenario_prefix_text]
  have hp : (prefix_state scenario_cfg env (bytes "NET") 3).pre = 19 := by
    rw [prefix_state_pre, label_byte_eq _ _ (by decide), hclock, scenario_prefix_text]
    decide
  have h := logger_log_fit scenario_cfg env (bytes "NET") 3 (.text (bytes "conn 7 ok"))
    logger_write (by decide) rfl (by decide) (by rw [hp]; decide)
  have e : (prefix_state scenario_cfg env (bytes "NET") 3).pre
      + (expansion 3 (.text (bytes "conn 7 ok"))).2.length
      + (terminators scenario_cfg.log_decor).length = 29 := by
    rw [hp]
    decide
  rw [e, ht] at h
  have h2 := congrArg (List.map (fun v : Nat × Int × Int × List Nat × Nat =>
    (v.1, v.2.1, v.2.2.2.1, v.2.2.2.2))) h
  simp only [List.map_map, List.map_cons, List.map_nil] at h2
  exact h2

/-- C8 in the environment of the scenario. -/
theorem C8_scenario_line_witness :
    scenario_env.ptime = scenario_time ∧
    (logger_log scenario_cfg scenario_env (bytes "NET") 3 (.text (bytes "conn 7 ok"))).calls.map
        (fun c => (c.func, c.level, c.data.take 29, c.data.getD 29 0))
      = [(logger_write, 3, bytes "07:05:09.123 I NET:conn 7 ok\n", 0)] :=
  ⟨scenario_env_ptime, C8_scenario_line scenario_env scenario_env_ptime⟩

/-- C9, refuted as stated: in the end-to-end scenario the length handed to the
sink is not 30. -/
theorem C9_length_not_30 :
    (logger_log scenario_cfg scenario_env (bytes "NET") 3 (.text (bytes "conn 7 ok"))).calls.map
        SinkCall.len ≠ [30] := by
  have h := logger_log_fit scenario_cfg scenario_env (bytes "NET") 3 (.text (bytes "conn 7 ok"))
    logger_write (by decide) rfl (by decide)
    (by have := prefix_state_pre_le scenario_cfg scenario_env (bytes "NET") 3
        have e : (expansion 3 (.text (bytes "conn 7 ok"))).2.length = 9 := by decide
        rw [e]; omega)
  have hp : (prefix_state scenario_cfg scenario_env (bytes "NET") 3).pre = 19 := by
    rw [prefix_state_pre, label_byte_eq _ _ (by decide), scenario_env_ptime,
      scenario_prefix_text]
    decide
  have e : (prefix_state scenario_cfg scenario_env (bytes "NET") 3).pre
      + (expansion 3 (.text (bytes "conn 7 ok"))).2.length
      + (terminators scenario_cfg.log_decor).length = 29 := by
    rw [hp]
    decide
  rw [e] at h
  have h2 := congrArg (List.map (fun v : Nat × Int × Int × List Nat × Nat => v.2.2.1)) h
  simp only [List.map_map, List.map_cons, List.map_nil] at h2
  intro h30
  have h3 : (logger_log scenario_cfg scenario_env (bytes "NET") 3
      (.text (bytes "conn 7 ok"))).calls.map SinkCall.len = [29] := h2
  rw [h3] at h30
  exact absurd h30 (by decide)

/-- C9, amended: in the end-to-end scenario (time, level text, sender and
newline; clock 07:05:09.123; level 3; sender "NET"; message "conn 7 ok";
maximum level 5) the length handed to the sink is 29, the number of bytes of
"07:05:09.123 I NET:conn 7 ok\n". -/
theorem C9_scenario_length (env : Env) (hclock : env.ptime = scenario_time) :
    (logger_log scenario_cfg env (bytes "NET") 3 (.text (bytes "conn 7 ok"))).calls.map
        SinkCall.len = [29] ∧
    (bytes "07:05:09.123 I NET:conn 7 ok\n").length = 29 := by
  have hp : (prefix_state scenario_cfg env (bytes "NET") 3).pre = 19 := by
    rw [prefix_state_pre, label_byte_eq _ _ (by decide), hclock, scenario_prefix_text]
    decide
  have h := logger_log_fit scenario_cfg env (bytes "NET") 3 (.text (bytes "conn 7 ok"))
    logger_write (by decide) rfl (by decide) (by rw [hp]; decide)
  have e : (prefix_state scenario_cfg env (bytes "NET") 3).pre
      + (expansion 3 (.text (bytes "conn 7 ok"))).2.length
      + (terminators scenario_cfg.log_decor).length = 29 := by
    rw [hp]
    decide
  rw [e] at h
  have h2 := congrArg (List.map (fun v : Nat × Int × Int × List Nat × Nat => v.2.2.1)) h
  simp only [List.map_map, List.map_cons, List.map_nil] at h2
  exact ⟨h2, by decide⟩

/-- C9 amended, in the environment of the scenario. -/
theorem C9_scenario_length_witness :
    scenario_env.ptime = scenario_time ∧
    (logger_log scenario_cfg scenario_env (bytes "NET") 3 (.text (bytes "conn 7 ok"))).calls.map
        SinkCall.len = [29] :=
  ⟨scenario_env_ptime, (C9_scenario_length scenario_env scenario_env_ptime).1⟩

theorem LogBuf_text_of_emits {p : Prop} {s s' : LogBuf} {a : List Nat}
    (h : Emits p s s' a) (hroom : s'.pre ≤ s.data.length) : s'.text = s.text ++ a := by
  have := h.text hroom
  simpa [LogBuf.text] using this

/-- C10: under `LOG_HAS_THREAD_ID` the block of `logger_log` renders, after two
spaces if something precedes, the pid field, exactly two spaces and the tid
field; each field is exactly 6 bytes: the decimal text of the id left-padded
with spaces when it has at most 6 characters, and its first 6 characters when
it has more. -/
theorem C10_id_fields (decor : Nat) (pid tid : Int) (s : LogBuf)
    (hd : has decor LOG_HAS_THREAD_ID = true) (hroom : s.pre + 16 ≤ s.data.length) :
    (put_thread_id decor pid tid s).text
      = s.text ++ (if s.pre ≠ 0 then [32, 32] else [])
          ++ (if (decimal (to_ulong pid)).length ≤ 6
              then List.replicate (6 - (decimal (to_ulong pid)).length) 32 ++ decimal (to_ulong pid)
              else (decimal (to_ulong pid)).take 6)
          ++ [32, 32]
          ++ (if (decimal (to_ulong tid)).length ≤ 6
              then List.replicate (6 - (decimal (to_ulong tid)).length) 32 ++ decimal (to_ulong tid)
              else (decimal (to_ulong tid)).take 6) ∧
    (if (decimal (to_ulong pid)).length ≤ 6
      then List.replicate (6 - (decimal (to_ulong pid)).length) 32 ++ decimal (to_ulong pid)
      else (decimal (to_ulong pid)).take 6).length = 6 ∧
    (if (decimal (to_ulong tid)).length ≤ 6
      then List.replicate (6 - (decimal (to_ulong tid)).length) 32 ++ decimal (to_ulong tid)
      else (decimal (to_ulong tid)).take 6).length = 6 := by
  have h := put_thread_id_emits decor pid tid s s.text (by simp [LogBuf.text]; omega)
  have hlen : (thread_text decor pid tid s.text).length ≤ 16 := by
    unfold thread_text
    rw [if_pos hd]
    have := sep_if_length_le s.text [32, 32]
    simp [id_field_length] at *
    omega
  have ht := LogBuf_text_of_emits h (by rw [h.pre]; omega)
  refine ⟨?_, id_field_length _, id_field_length _⟩
  rw [ht]
  unfold thread_text
  rw [if_pos hd, ← sep_if_eq s s.text [32, 32] (by simp [LogBuf.text]; omega)]
  simp [id_field]

set_option maxRecDepth 100000 in
/-- C10 for the pid 1234567 and the tid 42 at the start of the line: the pid
renders as "123456", the tid as "    42". -/
theorem C10_id_fields_witness :
    has LOG_HAS_THREAD_ID LOG_HAS_THREAD_ID = true ∧
    scenario_env.log_buffer.pre + 16 ≤ scenario_env.log_buffer.data.length ∧
    (put_thread_id LOG_HAS_THREAD_ID 1234567 42 scenario_env.log_buffer).text
      = bytes "123456      42" :=
  ⟨by decide, by rw [log_buffer_length]; decide,
    ((C10_id_fields LOG_HAS_THREAD_ID 1234567 42 scenario_env.log_buffer (by decide)
      (by rw [log_buffer_length]; decide)).1).trans
      (by simp [LogBuf.text, Env.log_buffer, to_ulong, decimal, bytes])⟩

theorem prefix_text_split (decor : Nat) (t : detail_time_str) (pid tid : Int)
    (lab sender : List Nat) (hd : has decor LOG_HAS_SENDER = true) :
    prefix_text decor t pid tid lab sender
      = front_text decor t pid tid lab ++ (sender.take 25 ++ [58]) := by
  unfold prefix_text front_text sender_text
  simp only [if_pos hd, List.append_assoc]

/-- C11: under `LOG_HAS_SENDER` the prefix that `logger_log` builds ends with the
sender field: the sender itself when it has at most 25 bytes and its first 25
bytes when it has more, with nothing added, and then `:`; the block that
renders it appends, after a space if something precedes, exactly these bytes
to whatever is before the cursor. -/
theorem C11_sender_field (cfg : Config) (env : Env) (sender : List Nat) (level : Int)
    (hd : has cfg.log_decor LOG_HAS_SENDER = true) :
    (prefix_state cfg env sender level).text
      = front_text cfg.log_decor env.ptime env.pid env.tid (label_byte env.stray level)
          ++ (if sender.length ≤ 25 then sender else sender.take 25) ++ [58] ∧
    ∀ s : LogBuf, s.pre + 27 ≤ s.data.length →
      (put_sender cfg.log_decor sender s).text
        = s.text ++ (if s.pre ≠ 0 then [32] else [])
            ++ (if sender.length ≤ 25 then sender else sender.take 25) ++ [58] := by
  have hcut : (if sender.length ≤ 25 then sender else sender.take 25) = sender.take 25 := by
    by_cases hl : sender.length ≤ 25
    · rw [if_pos hl, List.take_of_length_le hl]
    · rw [if_neg hl]
  rw [hcut]
  constructor
  · rw [prefix_state_text, prefix_text_split _ _ _ _ _ _ hd, List.append_assoc]
  · intro s hroom
    have h := put_sender_emits cfg.log_decor sender s s.text (by simp [LogBuf.text]; omega)
    have hlen : (sender_text cfg.log_decor sender s.text).length ≤ 27 := by
      unfold sender_text
      rw [if_pos hd]
      have := sep_if_length_le s.text [32]
      simp at *
      omega
    rw [LogBuf_text_of_emits h (by rw [h.pre]; omega)]
    unfold sender_text
    rw [if_pos hd, ← sep_if_eq s s.text [32] (by simp [LogBuf.text]; omega)]
    simp

/-- C11 for a sender of 30 bytes `x` with `LOG_HAS_SENDER` alone: the prefix is
25 bytes `x` and a `:`. -/
theorem C11_sender_field_witness :
    has ({ Config.initial with log_decor := LOG_HAS_SENDER } : Config).log_decor LOG_HAS_SENDER
      = true ∧
    (prefix_state { Config.initial with log_decor := LOG_HAS_SENDER } scenario_env
        (List.replicate 30 120) 3).text
      = List.replicate 25 120 ++ [58] :=
  ⟨by decide,
    (C11_sender_field { Config.initial with log_decor := LOG_HAS_SENDER } scenario_env
      (List.replicate 30 120) 3 (by decide)).1.trans
      (by
        have h1 : has LOG_HAS_SENDER LOG_HAS_YEAR = false := by decide
        have h2 : has LOG_HAS_SENDER LOG_HAS_DAY = false := by decide
        have h3 : has LOG_HAS_SENDER LOG_HAS_TIME = false := by decide
        have h4 : has LOG_HAS_SENDER LOG_HAS_THREAD_ID = false := by decide
        have h5 : has LOG_HAS_SENDER LOG_HAS_LEVEL_TEXT = false := by decide
        simp [front_text, year_text, day_text, time_text, thread_text, label_text,
          h1, h2, h3, h4, h5, sep_if, List.take_replicate])⟩

theorem decimal_digit_codes (n : Nat) : ∀ ch ∈ decimal n, 48 ≤ ch ∧ ch ≤ 57 := by
  intro ch hc
  unfold decimal at hc
  split at hc
  · simp at hc
    omega
  · simp at hc
    obtain ⟨a, ha, rfl⟩ := hc
    have := Nat.digits_lt_base (by norm_num : 1 < 10) ha
    omega

theorem decimal_value (n : Nat) :
    (decimal n).foldl (fun acc ch => 10 * acc + (ch - 48)) 0 = n := by
  unfold decimal
  split
  · rename_i h
    subst h
    rfl
  · rw [List.foldl_map, List.foldl_reverse]
    have h : ∀ l : List Nat, List.foldr (fun x y => 10 * y + (x + 48 - 48)) 0 l = Nat.ofDigits 10 l := by
      intro l
      induction l with
      | nil => rfl
      | cons a l ih =>
        rw [List.foldr_cons, ih, Nat.ofDigits_cons]
        omega
    rw [h, Nat.ofDigits_digits]

theorem decimal_no_leading_zero (n : Nat) (h : n ≠ 0) : (decimal n).head? ≠ some 48 := by
  unfold decimal
  rw [if_neg h]
  have hne : Nat.digits 10 n ≠ [] := by
    simpa [Nat.digits_eq_nil_iff_eq_zero] using h
  have hl := Nat.getLast_digit_ne_zero 10 h
  intro hh
  rw [List.head?_map, List.head?_reverse, List.getLast?_eq_getLast _ hne] at hh
  simp at hh
  exact hl hh

/-- C12: for every unsigned value `v`, width `w` and pad byte `c`,
`inner_utoa_pad` leaves `max(w - d, 0)` copies of `c`, the `d` decimal digits of
`v` (most significant first, digit codes only, no leading zero, `0` as the
single digit "0") and a NUL, and returns `max(d, w)`; `inner_utoa(v)` is
`inner_utoa_pad(v, 0, 0)` and leaves exactly the decimal text of `v` and a
NUL. -/
theorem C12_utoa_pad (v : Nat) (w : Int) (c : Nat) (hv : v < 18446744073709551616) :
    (inner_utoa_pad v w c).1
      = List.replicate (w - ((decimal v).length : Int)).toNat c ++ decimal v ++ [0] ∧
    ((inner_utoa_pad v w c).2 : Int) = max ((decimal v).length : Int) w ∧
    inner_utoa v = inner_utoa_pad v 0 0 ∧
    inner_utoa v = (decimal v ++ [0], (decimal v).length) ∧
    (∀ ch ∈ decimal v, 48 ≤ ch ∧ ch ≤ 57) ∧
    (decimal v).foldl (fun acc ch => 10 * acc + (ch - 48)) 0 = v ∧
    (v ≠ 0 → (decimal v).head? ≠ some 48) ∧
    decimal 0 = [48] := by
  have hm : v % 18446744073709551616 = v := Nat.mod_eq_of_lt hv
  have hpos := decimal_length_pos v
  refine ⟨?_, ?_, rfl, ?_, decimal_digit_codes v, decimal_value v,
    decimal_no_leading_zero v, rfl⟩
  · rw [inner_utoa_pad_eq, hm]
    simp only [lpad]
    have e : w.toNat - (decimal v).length = (w - ((decimal v).length : Int)).toNat := by omega
    rw [e]
  · rw [inner_utoa_pad_eq, hm]
    simp only [lpad, List.length_append, List.length_replicate]
    omega
  · rw [inner_utoa_eq, hm]

/-- C12 for the day field of a date: 7 with width 2 and pad `0` gives "07". -/
theorem C12_utoa_pad_witness :
    (7 : Nat) < 18446744073709551616 ∧
    (inner_utoa_pad 7 2 48).1
      = List.replicate ((2 : Int) - ((decimal 7).length : Int)).toNat 48 ++ decimal 7 ++ [0] ∧
    inner_utoa_pad 7 2 48 = ([48, 55, 0], 2) :=
  ⟨by decide, (C12_utoa_pad 7 2 48 (by decide)).1, by decide⟩

theorem scenario_text_with_label (pid tid : Int) (lab : List Nat) :
    prefix_text scenario_cfg.log_decor scenario_time pid tid lab (bytes "NET")
      = bytes "07:05:09.123 " ++ lab ++ bytes " NET:" := by
  have h1 : has scenario_cfg.log_decor LOG_HAS_YEAR = false := by decide
  have h2 : has scenario_cfg.log_decor LOG_HAS_DAY = false := by decide
  have h3 : has scenario_cfg.log_decor LOG_HAS_TIME = true := by decide
  have h4 : has scenario_cfg.log_decor LOG_HAS_THREAD_ID = false := by decide
  have h5 : has scenario_cfg.log_decor LOG_HAS_LEVEL_TEXT = true := by decide
  have h6 : has scenario_cfg.log_decor LOG_HAS_SENDER = true := by decide
  simp [prefix_text, year_text, day_text, time_text, thread_text, label_text, sender_text,
    h1, h2, h3, h4, h5, h6, sep_if, scenario_time, to_ulong, decimal, lpad, bytes]

/-- C13 at a failing input: with the scenario configuration and the level -1,
which passes the guard, `logger_log` reads `ltexts[-1]` outside the table
(`ok = false`) and the label of the dispatched line is the first byte found
behind that slot, here `Z`, not a fallback label; after `logger_set_level(6)`
the level 6 passes the guard too and `ltexts[6]` is read. -/
theorem C13_label_out_of_range :
    (logger_log scenario_cfg stray_env (bytes "NET") (-1) (.text (bytes "x"))).ok = false ∧
    (logger_log (logger_set_level scenario_cfg 6) stray_env (bytes "NET") 6
        (.text (bytes "x"))).ok = false ∧
    (logger_log scenario_cfg stray_env (bytes "NET") (-1) (.text (bytes "x"))).calls.map
        (SinkCall.view 21)
      = [(logger_write, -1, 21, bytes "07:05:09.123 Z NET:x\n", 0)] := by
  refine ⟨logger_log_flagged _ _ _ _ _ (by decide) (by decide) (by decide),
    logger_log_flagged _ _ _ _ _ (by decide) (by decide) (by decide), ?_⟩
  have hclock : stray_env.ptime = scenario_time := by decide
  have hlab : label_byte stray_env.stray (-1) = [90] := by decide
  have ht : (prefix_state scenario_cfg stray_env (bytes "NET") (-1)).text
      = bytes "07:05:09.123 Z NET:" := by
    rw [prefix_state_text, hlab, hclock, scenario_text_with_label]
    decide
  have hp : (prefix_state scenario_cfg stray_env (bytes "NET") (-1)).pre = 19 := by
    rw [prefix_state_pre, hlab, hclock, scenario_text_with_label]
    decide
  have h := logger_log_fit scenario_cfg stray_env (bytes "NET") (-1) (.text (bytes "x"))
    logger_write (by decide) rfl (by decide) (by rw [hp]; decide)
  have e : (prefix_state scenario_cfg stray_env (bytes "NET") (-1)).pre
      + (expansion (-1) (.text (bytes "x"))).2.length
      + (terminators scenario_cfg.log_decor).length = 21 := by
    rw [hp]
    decide
  rw [e, ht] at h
  rw [h]
  decide

/-- C14 at a failing input: the clock read fails (`inner_gettimeofday` returns
-1), `logger_log` still dispatches one line, and under `LOG_HAS_TIME` that
line carries the time field `07:05:09.123`, decoded from the uninitialised
`now`. -/
theorem C14_clock_failure_renders_time :
    (inner_gettimeofday clock_failed_env.rc clock_failed_env.the_time clock_failed_env.now).1 ≠ 0 ∧
    has scenario_cfg.log_decor LOG_HAS_TIME = true ∧
    (logger_log scenario_cfg clock_failed_env (bytes "NET") 3 (.text (bytes "conn 7 ok"))).calls.map
        (SinkCall.view 29)
      = [(logger_write, 3, 29, bytes "07:05:09.123 I NET:conn 7 ok\n", 0)] := by
  refine ⟨by decide, by decide, ?_⟩
  have hclock : clock_failed_env.ptime = scenario_time := by decide
  have ht : (prefix_state scenario_cfg clock_failed_env (bytes "NET") 3).text
      = bytes "07:05:09.123 I NET:" := by
    rw [prefix_state_text, label_byte_eq _ _ (by decide), hclock, scenario_prefix_text]
  have hp : (prefix_state scenario_cfg clock_failed_env (bytes "NET") 3).pre = 19 := by
    rw [prefix_state_pre, label_byte_eq _ _ (by decide), hclock, scenario_prefix_text]
    decide
  have h := logger_log_fit scenario_cfg clock_failed_env (bytes "NET") 3
    (.text (bytes "conn 7 ok")) logger_write (by decide) rfl (by decide) (by rw [hp]; decide)
  have e : (prefix_state scenario_cfg clock_failed_env (bytes "NET") 3).pre
      + (expansion 3 (.text (bytes "conn 7 ok"))).2.length
      + (terminators scenario_cfg.log_decor).length = 29 := by
    rw [hp]
    decide
  rw [e, ht] at h
  rw [h]
  decide

/-- The maximum level after a sequence of `logger_set_level` calls is the
argument of the last call. -/
theorem set_level_sequence (levels : List Int) : ∀ (cfg : Config),
    logger_get_level (levels.foldl logger_set_level cfg)
      = levels.getLast?.getD cfg.log_max_level := by
  induction levels with
  | nil => intro cfg; rfl
  | cons a as ih =>
    intro cfg
    rw [List.foldl_cons, ih]
    cases as with
    | nil => rfl
    | cons b bs =>
      rw [List.getLast?_cons_cons]
      have h : (b :: bs).getLast? = some ((b :: bs).getLast (by simp)) :=
        List.getLast?_eq_getLast _ _
      rw [h]
      rfl

/-- C15 at a failing input: after `logger_set_level(3)` and
`logger_set_level(6)` on the initial configuration, `logger_get_level` returns
6, above `LOGGER_MAX_LEVEL`. -/
theorem C15_set_level_unchecked :
    logger_get_level ([3, 6].foldl logger_set_level Config.initial) = 6 ∧
    LOGGER_MAX_LEVEL < 6 := by
  decide

/-- C16, refuted as stated: in a zone on UTC whose daylight saving time, one
hour ahead, is in effect (Europe/London on 2024-07-03), the instant 1720000000
decodes to 10:46:40 and encodes back, with `tm_isdst = 0`, to 1720003600. -/
theorem C16_round_trip_fails_in_dst :
    (inner_time_decode (zone_localtime 3600) { sec := 1720000000, msec := 0 }).2
      = { wday := 3, day := 3, mon := 6, year := 2024, sec := 40, min := 46, hour := 10,
          msec := 0 } ∧
    (inner_time_encode (zone_mktime 0 3600)
        (inner_time_decode (zone_localtime 3600) { sec := 1720000000, msec := 0 }).2).2.sec
      = 1720003600 ∧
    (inner_time_encode (zone_mktime 0 3600)
        (inner_time_decode (zone_localtime 3600) { sec := 1720000000, msec := 0 }).2).2.sec
      ≠ 1720000000 := by
  decide

/-- C16, amended: for every absolute time `t` whose `msec` fits an `int`, the
decoded year is `tm_year + 1900`, `inner_time_encode(inner_time_decode(t))` has
the `msec` of `t`, and its `sec` is what `mktime` gives for the fields that
`localtime_r` gave for `t.sec` with `tm_isdst = 0`; so it is `t` itself
whenever `mktime` maps those fields, read as standard time, back to `t.sec`. -/
theorem C16_round_trip (localtime_r : Int → tm) (mktime : tm_in → Int) (t : time_str)
    (hms : -2147483648 ≤ t.msec ∧ t.msec < 2147483648) :
    (inner_time_decode localtime_r t).2.year = (localtime_r t.sec).tm_year + 1900 ∧
    (inner_time_encode mktime (inner_time_decode localtime_r t).2).2.msec = t.msec ∧
    (inner_time_encode mktime (inner_time_decode localtime_r t).2).2.sec
      = mktime { tm_sec := (localtime_r t.sec).tm_sec,
                 tm_min := (localtime_r t.sec).tm_min,
                 tm_hour := (localtime_r t.sec).tm_hour,
                 tm_mday := (localtime_r t.sec).tm_mday,
                 tm_mon := (localtime_r t.sec).tm_mon,
                 tm_year := (localtime_r t.sec).tm_year,
                 tm_isdst := 0 } ∧
    (mktime { tm_sec := (localtime_r t.sec).tm_sec,
              tm_min := (localtime_r t.sec).tm_min,
              tm_hour := (localtime_r t.sec).tm_hour,
              tm_mday := (localtime_r t.sec).tm_mday,
              tm_mon := (localtime_r t.sec).tm_mon,
              tm_year := (localtime_r t.sec).tm_year,
              tm_isdst := 0 } = t.sec →
      (inner_time_encode mktime (inner_time_decode localtime_r t).2).2 = t) := by
  have hm : long_to_int t.msec = t.msec := by
    unfold long_to_int
    omega
  have hy : (localtime_r t.sec).tm_year + 1900 - 1900 = (localtime_r t.sec).tm_year := by omega
  refine ⟨rfl, ?_, ?_, ?_⟩
  · simp only [inner_time_encode, inner_time_decode, hm]
  · simp only [inner_time_encode, inner_time_decode, hy]
  · intro h
    simp only [inner_time_encode, inner_time_decode, hy, hm, h]

/-- C16 amended, on UTC at 2024-03-01 07:05:09.123: the round trip gives the
same time. -/
theorem C16_round_trip_witness :
    ((-2147483648 : Int) ≤ 123 ∧ (123 : Int) < 2147483648) ∧
    (inner_time_encode (zone_mktime 0 0)
        (inner_time_decode (zone_localtime 0) { sec := 1709276709, msec := 123 }).2).2
      = { sec := 1709276709, msec := 123 } :=
  ⟨by decide,
    (C16_round_trip (zone_localtime 0) (zone_mktime 0 0) { sec := 1709276709, msec := 123 }
      (by decide)).2.2.2 (by decide)⟩

theorem has_of_rendered (d flag : Nat) (hf : RENDERED_FLAGS &&& flag = flag) :
    has d flag = has (d &&& RENDERED_FLAGS) flag := by
  unfold has
  rw [Nat.land_assoc, hf]

theorem has_agree (d1 d2 flag : Nat) (h : d1 &&& RENDERED_FLAGS = d2 &&& RENDERED_FLAGS)
    (hf : RENDERED_FLAGS &&& flag = flag) : has d1 flag = has d2 flag := by
  rw [has_of_rendered d1 flag hf, has_of_rendered d2 flag hf, h]

theorem assemble_agree (d1 d2 : Nat) (h : d1 &&& RENDERED_FLAGS = d2 &&& RENDERED_FLAGS)
    (t : detail_time_str) (pid tid : Int) (stray : Int → List Nat) (sender : List Nat)
    (level : Int) (s : LogBuf) :
    assemble d1 t pid tid stray sender level s = assemble d2 t pid tid stray sender level s := by
  unfold assemble put_year put_day put_time put_thread_id put_level_text put_sender
  rw [has_agree d1 d2 LOG_HAS_YEAR h (by decide), has_agree d1 d2 LOG_HAS_DAY h (by decide),
    has_agree d1 d2 LOG_HAS_TIME h (by decide), has_agree d1 d2 LOG_HAS_THREAD_ID h (by decide),
    has_agree d1 d2 LOG_HAS_LEVEL_TEXT h (by decide), has_agree d1 d2 LOG_HAS_SENDER h (by decide)]

theorem terminate_agree (d1 d2 : Nat) (h : d1 &&& RENDERED_FLAGS = d2 &&& RENDERED_FLAGS)
    (s : LogBuf) (len : Int) : terminate d1 s len = terminate d2 s len := by
  unfold terminate
  rw [has_agree d1 d2 LOG_HAS_CR h (by decide), has_agree d1 d2 LOG_HAS_NEWLINE h (by decide)]

/-- C17: two decoration masks that agree on the bits YEAR, DAY, TIME, SENDER,
LEVEL_TEXT, THREAD_ID, CR and NEWLINE (and differ at most on `LOG_HAS_COLOR`,
`LOG_HAS_THREAD_SWC` and bits from 1024 up) give, for the same time, ids,
level, sender and message, the same run of `logger_log`: the same sink call
with the same level, buffer and length. -/
theorem C17_reserved_flags_ignored (cfg : Config) (d1 d2 : Nat) (env : Env)
    (sender : List Nat) (level : Int) (msg : Expansion)
    (h : d1 &&& RENDERED_FLAGS = d2 &&& RENDERED_FLAGS) :
    logger_log { cfg with log_decor := d1 } env sender level msg
      = logger_log { cfg with log_decor := d2 } env sender level msg := by
  unfold logger_log prefix_state finish
  simp only [assemble_agree d1 d2 h, terminate_agree d1 d2 h]

/-- C17 for the scenario mask and the same mask with `LOG_HAS_COLOR`,
`LOG_HAS_THREAD_SWC` and bit 1024 added. -/
theorem C17_reserved_flags_ignored_witness :
    scenario_cfg.log_decor &&& RENDERED_FLAGS
      = (scenario_cfg.log_decor ||| LOG_HAS_COLOR ||| LOG_HAS_THREAD_SWC ||| 1024)
          &&& RENDERED_FLAGS ∧
    logger_log { scenario_cfg with log_decor := scenario_cfg.log_decor } scenario_env
        (bytes "NET") 3 (.text (bytes "conn 7 ok"))
      = logger_log { scenario_cfg with log_decor :=
            scenario_cfg.log_decor ||| LOG_HAS_COLOR ||| LOG_HAS_THREAD_SWC ||| 1024 }
          scenario_env (bytes "NET") 3 (.text (bytes "conn 7 ok")) :=
  ⟨by decide, C17_reserved_flags_ignored _ _ _ _ _ _ _ (by decide)⟩

theorem pad_spaces_flagged (fuel : Nat) : ∀ (n : Nat) (s : LogBuf), s.ok = false →
    (pad_spaces fuel n s).ok = false := by
  induction fuel with
  | zero => intro n s h; exact h
  | succ f ih =>
    intro n s h
    simp only [pad_spaces]
    split
    · exact ih _ _ (putc_flagged s 32 h)
    · exact h

theorem copy_cstr_flagged (mem : List Nat) : ∀ (s : LogBuf), s.ok = false →
    (copy_cstr mem s).ok = false := by
  induction mem with
  | nil => intro s h; exact h
  | cons c cs ih =>
    intro s h
    simp only [copy_cstr]
    split
    · exact ih _ (putc_flagged s c h)
    · exact h

/-- An id whose text and NUL exceed the scratch array, or a run flagged before:
the run is flagged after the id field. -/
theorem put_id_flagged (id : Int) (s : LogBuf)
    (h : s.ok = false ∨ ¬ ((decimal (to_ulong id)).length + 1 ≤ THREADID_SIZE)) :
    (put_id id s).ok = false := by
  have h0 : (s.ok && decide ((inner_utoa (to_ulong id)).1.length ≤ THREADID_SIZE)) = false := by
    rcases h with h | h
    · simp [h]
    · rw [inner_utoa_eq, to_ulong_mod]
      simp only [List.length_append, List.length_singleton]
      simp [h]
  unfold put_id
  simp only []
  split
  · exact copy_cstr_flagged _ _ (pad_spaces_flagged _ _ _ h0)
  · exact copy_n_flagged _ _ _ h0

theorem put_thread_id_flagged (decor : Nat) (pid tid : Int) (s : LogBuf)
    (hd : has decor LOG_HAS_THREAD_ID = true) (h : ¬ ids_fit pid tid) :
    (put_thread_id decor pid tid s).ok = false := by
  unfold put_thread_id
  rw [if_pos hd]
  simp only []
  by_cases hp : (decimal (to_ulong pid)).length + 1 ≤ THREADID_SIZE
  · have ht : ¬ ((decimal (to_ulong tid)).length + 1 ≤ THREADID_SIZE) := fun ht => h ⟨hp, ht⟩
    exact put_id_flagged tid _ (Or.inr ht)
  · exact put_id_flagged tid _
      (Or.inl (putc_flagged _ _ (putc_flagged _ _ (put_id_flagged pid _ (Or.inr hp)))))

theorem put_level_text_keeps_flag (decor : Nat) (stray : Int → List Nat) (level : Int)
    (s : LogBuf) (h : s.ok = false) : (put_level_text decor stray level s).ok = false := by
  unfold put_level_text
  split
  · simp only []
    split
    · exact store_flagged _ _ (sep_flagged s 32 h)
    · rfl
  · exact h

/-- An id too wide for the scratch array under `LOG_HAS_THREAD_ID`: the run
writes outside `threadid`. -/
theorem logger_log_flagged_ids (cfg : Config) (env : Env) (sender : List Nat) (level : Int)
    (msg : Expansion) (hl : level ≤ cfg.log_max_level)
    (hd : has cfg.log_decor LOG_HAS_THREAD_ID = true) (hwide : ¬ ids_fit env.pid env.tid) :
    (logger_log cfg env sender level msg).ok = false := by
  rw [logger_log_pass cfg env sender level msg hl]
  have h1 : (prefix_state cfg env sender level).ok = false := by
    unfold prefix_state assemble
    exact put_sender_flagged _ _ _ (put_level_text_keeps_flag _ _ _ _
      (put_thread_id_flagged _ _ _ _ hd hwide))
  have h2 := finish_flagged cfg.log_decor level msg _ h1
  unfold dispatch
  split <;> exact h2

theorem decimal_rev_length_ge (k : Nat) : ∀ (n : Nat), 10 ^ k ≤ n →
    k + 1 ≤ (decimal_rev n).length := by
  induction k with
  | zero =>
    intro n _
    have := List.length_pos.mpr (decimal_rev_ne_nil n)
    omega
  | succ k ih =>
    intro n h
    rw [pow_succ] at h
    have h1 : 10 ^ k ≤ n / 10 := by
      rw [Nat.le_div_iff_mul_le (by norm_num)]
      exact h
    have hpos : 0 < n / 10 := lt_of_lt_of_le (by positivity) h1
    rw [decimal_rev_step n hpos]
    have := ih _ h1
    simp
    omega

theorem to_ulong_small (i : Int) (h0 : 0 ≤ i) (h : i < 18446744073709551616) :
    to_ulong i = i.toNat := by
  unfold to_ulong
  omega

/-- Ids from 0 to 999999999 fit the scratch array with their NUL. -/
theorem id_fits_below (id : Int) (h0 : 0 ≤ id) (h9 : id < 1000000000) :
    (decimal (to_ulong id)).length + 1 ≤ THREADID_SIZE := by
  have hu : to_ulong id < 10 ^ 9 := by
    unfold to_ulong
    omega
  have := decimal_rev_length_le 9 (to_ulong id) hu (by norm_num)
  rw [decimal_rev_length] at this
  unfold THREADID_SIZE
  omega

/-- C18, refuted as stated: 2147483647 is a non-negative 32-bit `int` with 10
digits, so `inner_utoa` writes 11 bytes for it, one more than the 10-byte array
`threadid` holds, and a run of `logger_log` that renders it as process id
leaves that array. -/
theorem C18_scratch_overflow :
    ((0 : Int) ≤ 2147483647 ∧ (2147483647 : Int) < 2147483648) ∧
    (inner_utoa (to_ulong 2147483647)).2 = 10 ∧
    (inner_utoa (to_ulong 2147483647)).1.length = 11 ∧
    THREADID_SIZE = 10 ∧
    (logger_log Config.initial wide_pid_env (bytes "NET") 3 (.text (bytes "x"))).ok = false := by
  refine ⟨by decide, by decide, by decide, rfl, ?_⟩
  apply logger_log_flagged_ids _ _ _ _ _ (by decide) (by decide)
  intro h
  have h1 := h.1
  have e : (decimal (to_ulong wide_pid_env.pid)).length = 10 := by
    have h2 := inner_utoa_eq (to_ulong 2147483647)
    rw [to_ulong_mod] at h2
    have h3 : (inner_utoa (to_ulong 2147483647)).2 = 10 := by decide
    rw [h2] at h3
    exact h3
  rw [e] at h1
  exact absurd h1 (by decide)

/-- C18, amended: for every process id and thread id from 0 to 999999999 the
decimal text that `inner_utoa` writes for it and its NUL fit the 10-byte array
`threadid` (digit count + 1 <= 10), and a run of `logger_log` with such ids and
a level of the label table leaves no array; an `int` id from 1000000000 on
does not fit. -/
theorem C18_ids_fit_scratch (pid tid : Int)
    (hp : 0 ≤ pid ∧ pid < 1000000000) (ht : 0 ≤ tid ∧ tid < 1000000000) :
    ((inner_utoa (to_ulong pid)).2 + 1 ≤ 10 ∧
      (inner_utoa (to_ulong pid)).1.length ≤ THREADID_SIZE) ∧
    ((inner_utoa (to_ulong tid)).2 + 1 ≤ 10 ∧
      (inner_utoa (to_ulong tid)).1.length ≤ THREADID_SIZE) ∧
    (∀ (cfg : Config) (env : Env) (sender : List Nat) (level : Int) (msg : Expansion),
      env.pid = pid → env.tid = tid → (0 ≤ level ∧ level < 6) →
      (logger_log cfg env sender level msg).ok = true) ∧
    (∀ id : Int, 1000000000 ≤ id → id < 2147483648 →
      THREADID_SIZE < (inner_utoa (to_ulong id)).1.length) := by
  have fp := id_fits_below pid hp.1 hp.2
  have ft := id_fits_below tid ht.1 ht.2
  refine ⟨?_, ?_, ?_, ?_⟩
  · rw [inner_utoa_eq, to_ulong_mod]
    unfold THREADID_SIZE at *
    simp only [List.length_append, List.length_singleton]
    omega
  · rw [inner_utoa_eq, to_ulong_mod]
    unfold THREADID_SIZE at *
    simp only [List.length_append, List.length_singleton]
    omega
  · intro cfg env sender level msg ep et hlev
    apply logger_log_ok
    rw [ep, et]
    exact ⟨fun _ => ⟨fp, ft⟩, fun _ => hlev⟩
  · intro id h9 h31
    have e := to_ulong_small id (by omega) (by omega)
    have h := decimal_rev_length_ge 9 (to_ulong id) (by rw [e]; omega)
    rw [decimal_rev_length] at h
    rw [inner_utoa_eq, to_ulong_mod]
    unfold THREADID_SIZE
    simp only [List.length_append, List.length_singleton]
    omega

/-- C18 amended, with the ids 4321 and 4322 of the scenario: five bytes are
written for each, and the run of `logger_log` with the default configuration
leaves no array. -/
theorem C18_ids_fit_scratch_witness :
    ((0 : Int) ≤ 4321 ∧ (4321 : Int) < 1000000000) ∧
    ((0 : Int) ≤ 4322 ∧ (4322 : Int) < 1000000000) ∧
    (inner_utoa (to_ulong 4321)).1.length = 5 ∧
    (inner_utoa (to_ulong 4321)).1.length ≤ THREADID_SIZE ∧
    (inner_utoa (to_ulong 4322)).1.length ≤ THREADID_SIZE ∧
    (logger_log Config.initial scenario_env (bytes "NET") 3 (.text (bytes "x"))).ok = true ∧
    THREADID_SIZE < (inner_utoa (to_ulong 1000000000)).1.length :=
  have h := C18_ids_fit_scratch 4321 4322 (by decide) (by decide)
  ⟨by decide, by decide, by decide, h.1.2, h.2.1.2,
    h.2.2.1 Config.initial scenario_env (bytes "NET") 3 (.text (bytes "x")) rfl rfl (by decide),
    h.2.2.2 1000000000 (by decide) (by decide)⟩

theorem decimal_length_year (y : Int) (h : 1000 ≤ y ∧ y ≤ 9999) :
    (decimal (to_ulong y)).length = 4 := by
  have e := to_ulong_small y (by omega) (by omega)
  have h1 := decimal_rev_length_le 4 (to_ulong y) (by rw [e]; omega) (by norm_num)
  have h2 := decimal_rev_length_ge 3 (to_ulong y) (by rw [e]; omega)
  rw [decimal_rev_length] at h1 h2
  omega

theorem lpad_two_length (n : Int) (h : 0 ≤ n ∧ n ≤ 99) :
    (lpad 2 48 (decimal (to_ulong n))).length = 2 := by
  have e := to_ulong_small n (by omega) (by omega)
  have h1 := decimal_rev_length_le 2 (to_ulong n) (by rw [e]; omega) (by norm_num)
  rw [decimal_rev_length] at h1
  have h2 := decimal_length_pos (to_ulong n)
  simp only [lpad, List.length_append, List.length_replicate]
  omega

theorem lpad_three_length (n : Int) (h : 0 ≤ n ∧ n ≤ 999) :
    (lpad 3 48 (decimal (to_ulong n))).length = 3 := by
  have e := to_ulong_small n (by omega) (by omega)
  have h1 := decimal_rev_length_le 3 (to_ulong n) (by rw [e]; omega) (by norm_num)
  rw [decimal_rev_length] at h1
  have h2 := decimal_length_pos (to_ulong n)
  simp only [lpad, List.length_append, List.length_replicate]
  omega

theorem sep_if_length (prev sp : List Nat) :
    (sep_if prev sp).length = if prev.length = 0 then 0 else sp.length := by
  unfold sep_if
  by_cases h : prev = []
  · subst h
    simp
  · have : prev.length ≠ 0 := by simpa using h
    simp [h, this]

theorem sender_start_emits (decor : Nat) (t : detail_time_str) (pid tid : Int)
    (stray : Int → List Nat) (level : Int) (s : LogBuf) (hs : s.pre = 0) :
    Emits (in_bounds decor pid tid level) s (sender_start decor t pid tid stray level s)
      (front_text decor t pid tid (label_byte stray level)) := by
  unfold sender_start front_text
  simp only []
  have h1 := put_year_emits decor t s
  have h2 := h1.trans (put_day_emits decor t _ _ (h1.pre0 hs))
  have h3 := h2.trans (put_time_emits decor t _ _ (h2.pre0 hs))
  have h4 := h3.trans (put_thread_id_emits decor pid tid _ _ (h3.pre0 hs))
  have h5 := h4.trans (put_level_text_emits decor stray level _ _ (h4.pre0 hs))
  have h6 := sep_emits (put_level_text decor stray level (put_thread_id decor pid tid
    (put_time decor t (put_day decor t (put_year decor t s))))) 32
  rw [sep_if_eq _ _ [32] (h5.pre0 hs)] at h6
  exact ((h5.trans h6).mono (fun h => by simp [in_bounds] at h; simp; exact h)).cast (by simp)

theorem front_text_length (decor : Nat) (t : detail_time_str) (pid tid : Int) (lab : List Nat)
    (hc : calendar t) (hlab : lab.length = 1) :
    (front_text decor t pid tid lab).length = mask_column decor := by
  obtain ⟨hy, hmon, hday, hh, hmi, hse, hms⟩ := hc
  have l1 : (year_text decor t).length = if has decor LOG_HAS_YEAR then 4 else 0 := by
    unfold year_text
    split
    · exact decimal_length_year t.year hy
    · rfl
  have l2 : ∀ prev, (day_text decor t prev).length
      = if has decor LOG_HAS_DAY then (if prev.length = 0 then 0 else 1) + 5 else 0 := by
    intro prev
    unfold day_text
    split
    · simp only [List.length_append, sep_if_length, List.length_singleton,
        lpad_two_length (t.mon + 1) (by omega), lpad_two_length t.day (by omega)]
    · rfl
  have l3 : ∀ prev, (time_text decor t prev).length
      = if has decor LOG_HAS_TIME then (if prev.length = 0 then 0 else 1) + 12 else 0 := by
    intro prev
    unfold time_text
    split
    · simp only [List.length_append, sep_if_length, List.length_singleton,
        lpad_two_length t.hour (by omega), lpad_two_length t.min (by omega),
        lpad_two_length t.sec (by omega), lpad_three_length t.msec (by omega)]
    · rfl
  have l4 : ∀ prev, (thread_text decor pid tid prev).length
      = if has decor LOG_HAS_THREAD_ID then (if prev.length = 0 then 0 else 2) + 14 else 0 := by
    intro prev
    unfold thread_text
    split
    · simp only [List.length_append, sep_if_length, id_field_length, List.length_cons,
        List.length_nil]
    · rfl
  have l5 : ∀ prev, (label_text decor lab prev).length
      = if has decor LOG_HAS_LEVEL_TEXT then (if prev.length = 0 then 0 else 1) + 1 else 0 := by
    intro prev
    unfold label_text
    split
    · simp only [List.length_append, sep_if_length, List.length_singleton, hlab]
    · rfl
  unfold front_text mask_column
  simp only [List.length_append, l1, l2, l3, l4, l5, sep_if_length, List.length_singleton]

theorem sender_offset_eq (cfg : Config) (env : Env) (level : Int) :
    sender_offset cfg env level
      = (front_text cfg.log_decor env.ptime env.pid env.tid (label_byte env.stray level)).length :=
  (sender_start_emits cfg.log_decor env.ptime env.pid env.tid env.stray level env.log_buffer
    rfl).pre0 rfl

/-- C19: for every decoration mask the number of prefix bytes before the sender
is the same for any two calendar times (year in 1000..9999, month in 0..11, day
in 1..31, hour in 0..23, minute and second in 0..59, millisecond in 0..999),
any ids and any levels (in 0..5 or not): it is a function of the mask, 37 for the
default decoration and 42 with `LOG_HAS_YEAR` added; under `LOG_HAS_SENDER` the
prefix continues there with the sender cut to 25 bytes and `:`. -/
theorem C19_sender_column (cfg : Config) (env1 env2 : Env) (level1 level2 : Int)
    (hc1 : calendar env1.ptime) (hc2 : calendar env2.ptime) :
    sender_offset cfg env1 level1 = sender_offset cfg env2 level2 ∧
    sender_offset cfg env1 level1 = mask_column cfg.log_decor ∧
    mask_column Config.initial.log_decor = 37 ∧
    mask_column (Config.initial.log_decor ||| LOG_HAS_YEAR) = 42 ∧
    (has cfg.log_decor LOG_HAS_SENDER = true → ∀ sender : List Nat,
      (prefix_state cfg env1 sender level1).text.drop (sender_offset cfg env1 level1)
        = sender.take 25 ++ [58]) := by
  have e1 : sender_offset cfg env1 level1 = mask_column cfg.log_decor := by
    rw [sender_offset_eq]
    exact front_text_length _ _ _ _ _ hc1 (label_byte_length _ _)
  have e2 : sender_offset cfg env2 level2 = mask_column cfg.log_decor := by
    rw [sender_offset_eq]
    exact front_text_length _ _ _ _ _ hc2 (label_byte_length _ _)
  refine ⟨by rw [e1, e2], e1, by decide, by decide, ?_⟩
  intro hd sender
  rw [prefix_state_text, prefix_text_split _ _ _ _ _ _ hd, sender_offset_eq,
    List.drop_left]

/-- C19 for the default decoration, the scenario clock at level 3 and the last
millisecond of the year 9999 at level 5 with other ids: the sender starts at
offset 37 in both. -/
theorem C19_sender_column_witness :
    calendar scenario_env.ptime ∧ calendar late_env.ptime ∧
    sender_offset Config.initial scenario_env 3 = sender_offset Config.initial late_env 5 ∧
    sender_offset Config.initial scenario_env 3 = 37 :=
  have hc1 : calendar scenario_env.ptime := by unfold calendar; decide
  have hc2 : calendar late_env.ptime := by unfold calendar; decide
  have h := C19_sender_column Config.initial scenario_env late_env 3 5 hc1 hc2
  ⟨hc1, hc2, h.1, h.2.1.trans h.2.2.1⟩

theorem prefix_text_label_split (decor : Nat) (t : detail_time_str) (pid tid : Int)
    (lab sender : List Nat) (hd : has decor LOG_HAS_LEVEL_TEXT = true) :
    prefix_text decor t pid tid lab sender
      = before_label decor t pid tid ++ sep_if (before_label decor t pid tid) [32] ++ lab
          ++ sender_text decor sender
              (before_label decor t pid tid ++ sep_if (before_label decor t pid tid) [32] ++ lab) := by
  unfold prefix_text before_label label_text
  simp only [if_pos hd, List.append_assoc]

/-- C20: for every requested level in 0..5 with `LOG_HAS_LEVEL_TEXT` set, when
the expansion fails the sink is called with level 1 while the prefix of the
dispatched line still carries the label of the requested level (after the
year, date, time and ids), followed by the sender, the literal
`<logging error: msg too long>`, the terminators and a NUL. -/
theorem C20_label_kept_on_escalation (cfg : Config) (env : Env) (sender : List Nat)
    (level : Int) (left : List Nat) (f : Nat) (h0 : 0 ≤ level ∧ level ≤ 5)
    (hl : level ≤ cfg.log_max_level) (hf : cfg.log_writer_fun = some f)
    (hd : has cfg.log_decor LOG_HAS_LEVEL_TEXT = true) :
    (logger_log cfg env sender level (.failed left)).calls.map
        (SinkCall.view ((prefix_state cfg env sender level).text.length + 29
          + (terminators cfg.log_decor).length))
      = [(f, 1,
          (((prefix_state cfg env sender level).text.length + 29
            + (terminators cfg.log_decor).length : Nat) : Int),
          (prefix_state cfg env sender level).text ++ bytes "<logging error: msg too long>"
            ++ terminators cfg.log_decor,
          0)] ∧
    (prefix_state cfg env sender level).text
      = before_label cfg.log_decor env.ptime env.pid env.tid
          ++ sep_if (before_label cfg.log_decor env.ptime env.pid env.tid) [32]
          ++ level_label level
          ++ sender_text cfg.log_decor sender
              (before_label cfg.log_decor env.ptime env.pid env.tid
                ++ sep_if (before_label cfg.log_decor env.ptime env.pid env.tid) [32]
                ++ level_label level) := by
  constructor
  · have hpre : (prefix_state cfg env sender level).text.length
        = (prefix_state cfg env sender level).pre := by
      rw [prefix_state_text, prefix_state_pre]
    have hle := prefix_state_pre_le cfg env sender level
    have e : (expansion level (.failed left)).2 = error_text := rfl
    have h := logger_log_fit cfg env sender level (.failed left) f hl hf
      (by rw [e]; decide) (by rw [e, error_text_length]; omega)
    rw [e, error_text_length] at h
    rw [hpre, h]
    rfl
  · rw [prefix_state_text, label_byte_eq env.stray level ⟨h0.1, by omega⟩,
      prefix_text_label_split _ _ _ _ _ _ hd]

/-- C20 in the end-to-end scenario at level 4: the line reads
`07:05:09.123 D NET:<logging error: msg too long>` and the level passed is 1. -/
theorem C20_label_kept_on_escalation_witness :
    ((0 : Int) ≤ 4 ∧ (4 : Int) ≤ 5) ∧ (4 : Int) ≤ scenario_cfg.log_max_level ∧
    scenario_cfg.log_writer_fun = some logger_write ∧
    has scenario_cfg.log_decor LOG_HAS_LEVEL_TEXT = true ∧
    (prefix_state scenario_cfg scenario_env (bytes "NET") 4).text = bytes "07:05:09.123 D NET:" ∧
    (logger_log scenario_cfg scenario_env (bytes "NET") 4 (.failed [])).calls.map
        (SinkCall.view ((prefix_state scenario_cfg scenario_env (bytes "NET") 4).text.length + 29
          + (terminators scenario_cfg.log_decor).length))
      = [(logger_write, 1,
          (((prefix_state scenario_cfg scenario_env (bytes "NET") 4).text.length + 29
            + (terminators scenario_cfg.log_decor).length : Nat) : Int),
          (prefix_state scenario_cfg scenario_env (bytes "NET") 4).text
            ++ bytes "<logging error: msg too long>" ++ terminators scenario_cfg.log_decor,
          0)] :=
  have h := C20_label_kept_on_escalation scenario_cfg scenario_env (bytes "NET") 4 []
    logger_write (by decide) (by decide) rfl (by decide)
  have ht : (prefix_state scenario_cfg scenario_env (bytes "NET") 4).text
      = bytes "07:05:09.123 D NET:" := by
    rw [prefix_state_text, label_byte_eq _ _ (by decide), scenario_env_ptime,
      scenario_text_with_label]
    decide
  ⟨by decide, by decide, rfl, by decide, ht, h.1⟩

end Logger
